import Mathlib

/-!
Shallow embedding of the PRI container codec (`src/pri/src/lib.rs`) from the
repository `cloudpeers/x`.

Byte streams are modelled as lists of naturals together with a cursor
position; little-endian integer fields are assembled and emitted explicitly.
Fallible reads return `Option`; the writer is total (the Rust writer targets
an in-memory seekable sink and its write calls cannot fail).  Machine-integer
casts (`as u16`, `as u32`) and wrapping subtractions are made explicit with
`% 2 ^ 16`, `% 2 ^ 32` and dedicated wrapping-subtraction helpers.

The five typed payload codecs (`DataItem`, `PriDescriptor`, `ResourceMap`,
`DecisionInfo`, `HierarchicalSchema`) live in modules that are not part of
the provided sources; following the specification (§4.4, §6) they are
modelled as an abstract registry of pluggable codecs, each exposing a
16-byte identifier, a `decode` that may consume bytes (returning a decoded
value and a new cursor position) and an `encode` emitting bytes.
-/

set_option maxRecDepth 100000

namespace Pri

/-- Little-endian value of a list of bytes. -/
def leVal (bs : List Nat) : Nat := bs.foldr (fun b acc => b + 256 * acc) 0

/-- The two little-endian bytes of a 16-bit value. -/
def u16Bytes (v : Nat) : List Nat := [v % 256, v / 256 % 256]

/-- The four little-endian bytes of a 32-bit value. -/
def u32Bytes (v : Nat) : List Nat :=
  [v % 256, v / 256 % 256, v / 2 ^ 16 % 256, v / 2 ^ 24 % 256]

/-- Wrapping 64-bit subtraction (Rust `u64` arithmetic in release mode). -/
def u64Sub (a b : Nat) : Nat := if b ≤ a then a - b else 2 ^ 64 - b + a

/-- Wrapping 32-bit subtraction (Rust `u32` arithmetic in release mode). -/
def u32Sub (a b : Nat) : Nat := if b ≤ a then a - b else 2 ^ 32 - b + a

/-- A seekable in-memory byte stream being read (Rust `Cursor` as `Read + Seek`). -/
structure ByteStream where
  data : List Nat
  pos : Nat
deriving DecidableEq

/-- `read_exact` for `n` bytes: fails unless `n` bytes are available. -/
def readBytes (n : Nat) (r : ByteStream) : Option (List Nat × ByteStream) :=
  if r.pos + n ≤ r.data.length then
    some ((r.data.drop r.pos).take n, ⟨r.data, r.pos + n⟩)
  else none

/-- `read_u16::<LE>`. -/
def readU16 (r : ByteStream) : Option (Nat × ByteStream) :=
  (readBytes 2 r).map fun p => (leVal p.1, p.2)

/-- `read_u32::<LE>`. -/
def readU32 (r : ByteStream) : Option (Nat × ByteStream) :=
  (readBytes 4 r).map fun p => (leVal p.1, p.2)

/-- `r.take(n).read_to_end(..)`: reads up to `n` bytes, never fails. -/
def readUpTo (n : Nat) (r : ByteStream) : List Nat × ByteStream :=
  ((r.data.drop r.pos).take n, ⟨r.data, r.pos + min n (r.data.length - r.pos)⟩)

/-- `seek(SeekFrom::Start p)`. -/
def seekTo (p : Nat) (r : ByteStream) : ByteStream := ⟨r.data, p⟩

/-- A seekable in-memory byte sink being written (Rust `Cursor` as `Write + Seek`).
Writing past the current end first pads with zeros, as `Cursor<Vec<u8>>` does. -/
structure ByteSink where
  data : List Nat
  pos : Nat
deriving DecidableEq

/-- Pad a buffer with zeros up to length `n` (no-op when already that long). -/
def padTo (d : List Nat) (n : Nat) : List Nat := d ++ List.replicate (n - d.length) 0

/-- `write_all`: overwrite bytes at the cursor, extending the buffer as needed. -/
def writeRaw (bs : List Nat) (w : ByteSink) : ByteSink :=
  let d := padTo w.data w.pos
  ⟨d.take w.pos ++ bs ++ d.drop (w.pos + bs.length), w.pos + bs.length⟩

/-- `write_u16::<LE>`. -/
def writeU16 (v : Nat) (w : ByteSink) : ByteSink := writeRaw (u16Bytes v) w

/-- `write_u32::<LE>`. -/
def writeU32 (v : Nat) (w : ByteSink) : ByteSink := writeRaw (u32Bytes v) w

/-- `seek(SeekFrom::Start p)` on the sink. -/
def seekW (p : Nat) (w : ByteSink) : ByteSink := ⟨w.data, p⟩

/-- The four recognized version magics. -/
def MRM_PRI0 : List Nat := [0x6d, 0x72, 0x6d, 0x5f, 0x70, 0x72, 0x69, 0x30]

def MRM_PRI1 : List Nat := [0x6d, 0x72, 0x6d, 0x5f, 0x70, 0x72, 0x69, 0x31]

def MRM_PRI2 : List Nat := [0x6d, 0x72, 0x6d, 0x5f, 0x70, 0x72, 0x69, 0x32]

def MRM_PRIF : List Nat := [0x6d, 0x72, 0x6d, 0x5f, 0x70, 0x72, 0x69, 0x66]

/-- Modelled from the spec: a pluggable typed payload codec (§4.4, §6).  The
concrete codecs (`DataItem`, `PriDescriptor`, `ResourceMap`, `DecisionInfo`,
`HierarchicalSchema`) are in modules missing from the provided sources, so
only their interface is modelled: a 16-byte identifier, a `decode` taking the
declared payload length and the positioned stream and returning a decoded
value (represented abstractly as a byte list) plus the cursor position it
leaves the stream at, and an `encode` emitting the value's bytes. -/
structure PayloadCodec where
  ident : List Nat
  decode : Nat → ByteStream → Option (List Nat × Nat)
  encode : List Nat → List Nat

/-- Modelled from the spec: the registry of known payload codecs (§4.4). -/
abbrev Registry := List PayloadCodec

/-- Dispatch: exact byte equality of the 16-byte identifier, first match wins. -/
def findCodec (R : Registry) (id : List Nat) : Option PayloadCodec :=
  List.find? (fun c => c.ident = id) R

/-- `SectionData`: the closed tagged union of payloads.  A recognized payload
is `known identifier value` (the Rust enum variants `DataItem`, …, carrying
the codec-decoded value); an unrecognized one is `unknown identifier bytes`
(the Rust `Unknown(UnknownSection)`). -/
inductive SectionData where
  | known : List Nat → List Nat → SectionData
  | unknown : List Nat → List Nat → SectionData
deriving DecidableEq

/-- `SectionData::section_identifier`. -/
def SectionData.section_identifier : SectionData → List Nat
  | .known id _ => id
  | .unknown id _ => id

/-- `SectionData::read`: dispatch on the identifier; fall back to the opaque
`UnknownSection::read`, which copies up to `length` bytes verbatim. -/
def SectionData.read (R : Registry) (id : List Nat) (length : Nat) (r : ByteStream) :
    Option (SectionData × ByteStream) :=
  match findCodec R id with
  | some c => (c.decode length r).map fun vp => (.known id vp.1, ⟨r.data, vp.2⟩)
  | none =>
    some (.unknown id ((r.data.drop r.pos).take length),
      ⟨r.data, r.pos + min length (r.data.length - r.pos)⟩)

/-- The bytes `SectionData::write` emits: the codec's `encode` output for a
known payload, the captured raw bytes for an unknown one. -/
def SectionData.writeBytes (R : Registry) : SectionData → List Nat
  | .known id v =>
    match findCodec R id with
    | some c => c.encode v
    | none => v
  | .unknown _ bs => bs

/-- A table-of-contents entry (`TocEntry`). -/
structure TocEntry where
  section_identifier : List Nat
  flags : Nat
  section_flags : Nat
  section_qualifier : Nat
  section_offset : Nat
  section_length : Nat
deriving DecidableEq

/-- `TocEntry::read`: 16-byte identifier then five little-endian fields. -/
def TocEntry.read (r : ByteStream) : Option (TocEntry × ByteStream) :=
  match readBytes 16 r with
  | none => none
  | some (id, r) =>
  match readU16 r with
  | none => none
  | some (flags, r) =>
  match readU16 r with
  | none => none
  | some (sflags, r) =>
  match readU32 r with
  | none => none
  | some (qual, r) =>
  match readU32 r with
  | none => none
  | some (off, r) =>
  match readU32 r with
  | none => none
  | some (len, r) =>
  some (⟨id, flags, sflags, qual, off, len⟩, r)

/-- `TocEntry::write`. -/
def TocEntry.write (e : TocEntry) (w : ByteSink) : ByteSink :=
  writeU32 e.section_length <| writeU32 e.section_offset <|
    writeU32 e.section_qualifier <| writeU16 e.section_flags <|
      writeU16 e.flags <| writeRaw e.section_identifier w

/-- A section: qualifier, two flag fields and one payload (`Section`). -/
structure Section where
  section_qualifier : Nat
  flags : Nat
  section_flags : Nat
  data : SectionData
deriving DecidableEq

/-- `Section::read`: 32-byte envelope header, payload dispatch, then a seek to
the footer position computed from the declared length (not from the payload
codec's cursor) and validation of the footer marker and redundant length. -/
def Section.read (R : Registry) (r : ByteStream) : Option (Section × ByteStream) :=
  let start := r.pos
  match readBytes 16 r with
  | none => none
  | some (id, r) =>
  match readU32 r with
  | none => none
  | some (qual, r) =>
  match readU16 r with
  | none => none
  | some (flags, r) =>
  match readU16 r with
  | none => none
  | some (sflags, r) =>
  match readU32 r with
  | none => none
  | some (slen, r) =>
  match readU32 r with
  | none => none
  | some (z, r) =>
  if z ≠ 0 then none else
  match SectionData.read R id (u32Sub (u32Sub slen 16) 24) r with
  | none => none
  | some (data, r) =>
  match readU32 (seekTo (u64Sub (start + slen) 8) r) with
  | none => none
  | some (m, r) =>
  if m ≠ 0xdef5fade then none else
  match readU32 r with
  | none => none
  | some (l2, r) =>
  if l2 ≠ slen then none else
  some (⟨qual, flags, sflags, data⟩, r)

/-- `Section::write`: header with zero length placeholder, payload, footer
with the measured length, then a backward seek to patch the header's length
field, and a final seek past the footer. -/
def Section.write (R : Registry) (s : Section) (w : ByteSink) : ByteSink :=
  let w := writeRaw s.data.section_identifier w
  let w := writeU32 s.section_qualifier w
  let w := writeU16 s.flags w
  let w := writeU16 s.section_flags w
  let w := writeU32 0 w
  let w := writeU32 0 w
  let start := w.pos
  let w := writeRaw (s.data.writeBytes R) w
  let e := w.pos
  let slen := ((e - start) % 2 ^ 32 + 40) % 2 ^ 32
  let w := writeU32 0xdef5fade w
  let w := writeU32 slen w
  let w := seekW (start - 8) w
  let w := writeU32 slen w
  seekW (e + 8) w

/-- `PriFile`: an ordered sequence of sections. -/
structure PriFile where
  sections : List Section
deriving DecidableEq

/-- The TOC read loop (`for _ in 0..num_sections`). -/
def readToc : Nat → ByteStream → Option (List TocEntry × ByteStream)
  | 0, r => some ([], r)
  | n + 1, r =>
    match TocEntry.read r with
    | none => none
    | some (e, r) =>
    match readToc n r with
    | none => none
    | some (es, r) => some (e :: es, r)

/-- The section read loop: seek to each TOC entry's offset and decode. -/
def readSections (R : Registry) (sso : Nat) :
    List TocEntry → ByteStream → Option (List Section × ByteStream)
  | [], r => some ([], r)
  | e :: es, r =>
    match Section.read R (seekTo (sso + e.section_offset) r) with
    | none => none
    | some (s, r) =>
    match readSections R sso es r with
    | none => none
    | some (ss, r) => some (s :: ss, r)

/-- Recognize the version magic (the `match` in `PriFile::read`). -/
def checkMagic (m : List Nat) : Option (List Nat) :=
  if m = MRM_PRI0 then some MRM_PRI0
  else if m = MRM_PRI1 then some MRM_PRI1
  else if m = MRM_PRI2 then some MRM_PRI2
  else if m = MRM_PRIF then some MRM_PRIF
  else none

/-- `PriFile::read`: header validation, footer validation, TOC decode, then
per-section random-access decode. -/
def PriFile.read (R : Registry) (r : ByteStream) : Option PriFile :=
  match readBytes 8 r with
  | none => none
  | some (magic, r) =>
  match checkMagic magic with
  | none => none
  | some version =>
  match readU16 r with
  | none => none
  | some (a, r) =>
  if a ≠ 0 then none else
  match readU16 r with
  | none => none
  | some (b, r) =>
  if b ≠ 1 then none else
  match readU32 r with
  | none => none
  | some (tfs, r) =>
  match readU32 r with
  | none => none
  | some (toc, r) =>
  match readU32 r with
  | none => none
  | some (sso, r) =>
  match readU16 r with
  | none => none
  | some (ns, r) =>
  match readU16 r with
  | none => none
  | some (c, r) =>
  if c ≠ 0xffff then none else
  match readU32 r with
  | none => none
  | some (d, r) =>
  if d ≠ 0 then none else
  match readU32 (seekTo (u64Sub tfs 16) r) with
  | none => none
  | some (m, r) =>
  if m ≠ 0xdefffade then none else
  match readU32 r with
  | none => none
  | some (t2, r) =>
  if t2 ≠ tfs then none else
  match readBytes 8 r with
  | none => none
  | some (magic2, r) =>
  if magic2 ≠ version then none else
  match readToc ns (seekTo toc r) with
  | none => none
  | some (entries, r) =>
  match readSections R sso entries r with
  | none => none
  | some (sections, _) => some ⟨sections⟩

/-- The section write loop with per-entry TOC backpatching. -/
def writeSections (R : Registry) (sso : Nat) :
    List Section → Nat → ByteSink → ByteSink
  | [], _, w => w
  | s :: ss, i, w =>
    let start := w.pos
    let w := Section.write R s w
    let e := w.pos
    let offset := u64Sub start sso
    let length := e - start
    let w := seekW (30 + 32 * i + 24) w
    let w := writeU32 (offset % 2 ^ 32) w
    let w := writeU32 (length % 2 ^ 32) w
    let w := seekW e w
    writeSections R sso ss (i + 1) w

/-- `PriFile::write`: header with placeholder size, placeholder TOC,
sections with offset/length backpatch, footer, then a final seek back to
patch `total_file_size` in the header. -/
def PriFile.write (R : Registry) (f : PriFile) (w : ByteSink) : ByteSink :=
  let w := writeRaw MRM_PRI2 w
  let w := writeU16 0 w
  let w := writeU16 1 w
  let w := writeU32 0 w
  let w := writeU32 30 w
  let sso := f.sections.length * 32 + 30
  let w := writeU32 (sso % 2 ^ 32) w
  let w := writeU16 (f.sections.length % 2 ^ 16) w
  let w := writeU16 0xffff w
  let w := writeU32 0 w
  let w := f.sections.foldl
    (fun w s => TocEntry.write ⟨s.data.section_identifier, s.flags,
      s.section_flags, s.section_qualifier, 0, 0⟩ w) w
  let w := writeSections R sso f.sections 0 w
  let pos := w.pos
  let tfs := pos + 16
  let w := writeU32 0xdefffade w
  let w := writeU32 (tfs % 2 ^ 32) w
  let w := writeRaw MRM_PRI2 w
  let w := seekW 12 w
  writeU32 (tfs % 2 ^ 32) w

/-- The byte stream `PriFile::write` produces on a fresh sink. -/
def PriFile.writeBytes (R : Registry) (f : PriFile) : List Nat :=
  (PriFile.write R f ⟨[], 0⟩).data

/-- `PriFile::num_sections`. -/
def PriFile.num_sections (f : PriFile) : Nat := f.sections.length

/-- `PriFile::section`: `Vec::get`, total and never panicking. -/
def PriFile.sectionAt (f : PriFile) (i : Nat) : Option Section := f.sections.get? i

/-- `PriFile::add_section`. -/
def PriFile.add_section (f : PriFile) (s : Section) : PriFile := ⟨f.sections ++ [s]⟩

/-! ### Observation helpers (used to state properties about byte streams) -/

/-- The `n` bytes of `d` starting at position `p`. -/
def slice (d : List Nat) (p n : Nat) : List Nat := (d.drop p).take n

/-- The little-endian 16-bit field of `d` at position `p`, when present. -/
def getU16 (d : List Nat) (p : Nat) : Option Nat :=
  if p + 2 ≤ d.length then some (leVal (slice d p 2)) else none

/-- The little-endian 32-bit field of `d` at position `p`, when present. -/
def getU32 (d : List Nat) (p : Nat) : Option Nat :=
  if p + 4 ≤ d.length then some (leVal (slice d p 4)) else none

/-- Surgically replace the bytes of `d` at position `p` with `bs`. -/
def setAt (d : List Nat) (p : Nat) (bs : List Nat) : List Nat :=
  d.take p ++ bs ++ d.drop (p + bs.length)

/-! ### Closed forms for the writer's output -/

/-- The bytes the payload codec emits for a section's payload. -/
def encLen (R : Registry) (s : Section) : Nat := (s.data.writeBytes R).length

/-- The full on-disk size of one section: 32-byte header + payload + 8-byte footer. -/
def blockLen (R : Registry) (s : Section) : Nat := encLen R s + 40

/-- The `section_length` value `Section::write` computes (`(end - start) as u32 + 40`). -/
def secLenVal (R : Registry) (s : Section) : Nat := (encLen R s % 2 ^ 32 + 40) % 2 ^ 32

/-- The bytes `Section::write` leaves in the buffer for one section. -/
def secBytes (R : Registry) (s : Section) : List Nat :=
  s.data.section_identifier ++ u32Bytes s.section_qualifier ++ u16Bytes s.flags ++
    u16Bytes s.section_flags ++ u32Bytes (secLenVal R s) ++ u32Bytes 0 ++
    s.data.writeBytes R ++ u32Bytes 0xdef5fade ++ u32Bytes (secLenVal R s)

/-- A placeholder TOC entry as first emitted (offset and length zero). -/
def tocPlaceholder (s : Section) : List Nat :=
  s.data.section_identifier ++ u16Bytes s.flags ++ u16Bytes s.section_flags ++
    u32Bytes s.section_qualifier ++ u32Bytes 0 ++ u32Bytes 0

/-- A TOC entry after its offset/length backpatch.  The patch target
`toc_offset + 32*i + 24` is two bytes before the written entry's own offset
field, so the patched eight bytes land over the last two qualifier bytes and
the offset field, leaving the last two written bytes (zero) in place. -/
def tocEntryBytes (s : Section) (off len : Nat) : List Nat :=
  s.data.section_identifier ++ u16Bytes s.flags ++ u16Bytes s.section_flags ++
    (u32Bytes s.section_qualifier).take 2 ++ u32Bytes off ++ u32Bytes len ++ [0, 0]

/-- The fully patched TOC region; `off` accumulates `2 + Σ blockLen`. -/
def mkToc (R : Registry) : List Section → Nat → List Nat
  | [], _ => []
  | s :: ss, off =>
    tocEntryBytes s (off % 2 ^ 32) (blockLen R s % 2 ^ 32) ++ mkToc R ss (off + blockLen R s)

/-- The concatenated section bodies. -/
def mkBlob (R : Registry) : List Section → List Nat
  | [] => []
  | s :: ss => secBytes R s ++ mkBlob R ss

/-- The sequence of backpatched TOC offsets (as 32-bit values). -/
def offsets (R : Registry) : List Section → Nat → List Nat
  | [], _ => []
  | s :: ss, off => off % 2 ^ 32 :: offsets R ss (off + blockLen R s)

/-- The placeholder TOC region as first emitted. -/
def placeToc (ss : List Section) : List Nat := (ss.map tocPlaceholder).flatten

/-- The total number of bytes `PriFile::write` produces, which is also the
`total_file_size` value it backpatches. -/
def totalLen (R : Registry) (f : PriFile) : Nat :=
  48 + 32 * f.sections.length + (mkBlob R f.sections).length

/-- The 32 leading header bytes (the declared `toc_offset` of 30 notwithstanding,
the writer emits 32 bytes before the first TOC entry). -/
def header32 (tfs sso ns : Nat) : List Nat :=
  MRM_PRI2 ++ u16Bytes 0 ++ u16Bytes 1 ++ u32Bytes tfs ++ u32Bytes 30 ++
    u32Bytes sso ++ u16Bytes ns ++ u16Bytes 0xffff ++ u32Bytes 0

/-- The 16 trailing footer bytes. -/
def footer16 (tfs : Nat) : List Nat := u32Bytes 0xdefffade ++ u32Bytes tfs ++ MRM_PRI2

/-- Closed form of `PriFile::write`'s output on a fresh sink. -/
def mkFile (R : Registry) (f : PriFile) : List Nat :=
  header32 (totalLen R f) ((f.sections.length * 32 + 30) % 2 ^ 32)
      (f.sections.length % 2 ^ 16) ++
    mkToc R f.sections 2 ++ mkBlob R f.sections ++ footer16 (totalLen R f)

/-! ### Well-formedness and codec contracts -/

/-- What a successful parse of a genuine byte stream guarantees about each
section: a 16-byte identifier, fields within their machine-integer ranges,
and the dispatch outcome recorded in the constructor. -/
def SectionWF (R : Registry) (s : Section) : Prop :=
  s.data.section_identifier.length = 16 ∧
    s.section_qualifier < 2 ^ 32 ∧ s.flags < 2 ^ 16 ∧ s.section_flags < 2 ^ 16 ∧
    match s.data with
    | .known id _ => (findCodec R id).isSome
    | .unknown id _ => findCodec R id = none

/-- Modelled from the spec: the part of the payload-codec contract that the
round-trip property relies on — decoding the bytes `encode` produced, with
the declared length equal to their count, recovers the encoded value
(§4.4's capability contract together with §8's round-trip property). -/
def CodecRT (R : Registry) : Prop :=
  ∀ c ∈ R, ∀ v pre post, ∃ p,
    c.decode (c.encode v).length ⟨pre ++ c.encode v ++ post, pre.length⟩ = some (v, p)

/-! ### Concrete inputs used by witnesses and counterexamples -/

/-- The identifier `b"test0000000000\x5Cx00\x5Cx00"` of the spec's Scenario A. -/
def testid : List Nat := [0x74, 0x65, 0x73, 0x74] ++ List.replicate 10 0x30 ++ [0, 0]

/-- The payload `b"hello"`. -/
def hello : List Nat := [0x68, 0x65, 0x6c, 0x6c, 0x6f]

/-- A container holding one unknown section (Scenario A). -/
def priA : PriFile := ⟨[⟨0, 0, 0, .unknown testid hello⟩]⟩

/-- The empty registry: every identifier is unrecognized. -/
def emptyR : Registry := []

/-- A registry with a single contract-violating codec: its `decode` consumes
no input at all (it ignores the stream and declared length). -/
def badCodec : PayloadCodec := ⟨testid, fun _ _ => some ([], 0), fun v => v⟩

def badR : Registry := [badCodec]

/-- A single well-framed section whose declared payload length is 5 although
`badCodec.decode` consumes 0 bytes. -/
def c4Stream : List Nat :=
  testid ++ u32Bytes 7 ++ u16Bytes 3 ++ u16Bytes 5 ++ u32Bytes 45 ++ u32Bytes 0 ++
    [1, 2, 3, 4, 5] ++ u32Bytes 0xdef5fade ++ u32Bytes 45

/-- A valid file followed by one byte of trailing junk: its header/footer
sizes agree with each other but not with the stream's actual length. -/
def c5Stream : List Nat := PriFile.writeBytes emptyR priA ++ [0]

/-! Concrete inputs for the size-overflow counterexample: 65535 TOC entries
all pointing at the same 65506-byte section, so that re-serializing the
parsed container needs more than `2 ^ 32` bytes. -/

/-- One TOC entry of the oversized input; all fields but the identifier are
zero (the reader only uses the offset). -/
def atkEntry : List Nat := testid ++ List.replicate 16 0

/-- The single shared section body of the oversized input. -/
def atkSection : List Nat :=
  testid ++ u32Bytes 0 ++ u16Bytes 0 ++ u16Bytes 0 ++ u32Bytes 65506 ++ u32Bytes 0 ++
    List.replicate 65466 0 ++ u32Bytes 0xdef5fade ++ u32Bytes 65506

/-- Header of the oversized input: 65535 sections, TOC at 32, sections at
2097152, total size 2162674. -/
def atkHeader : List Nat :=
  MRM_PRI0 ++ u16Bytes 0 ++ u16Bytes 1 ++ u32Bytes 2162674 ++ u32Bytes 32 ++
    u32Bytes 2097152 ++ u16Bytes 65535 ++ u16Bytes 0xffff ++ u32Bytes 0

def atkFooter : List Nat := u32Bytes 0xdefffade ++ u32Bytes 2162674 ++ MRM_PRI0

/-- The oversized but valid input stream. -/
def atkStream : List Nat :=
  atkHeader ++ (List.replicate 65535 atkEntry).flatten ++ atkSection ++ atkFooter

/-- The TOC entry each 32-byte `atkEntry` record parses to. -/
def atkToc : TocEntry := ⟨testid, 0, 0, 0, 0, 0⟩

/-- The section each TOC entry of `atkStream` parses to. -/
def atkParsedSection : Section := ⟨0, 0, 0, .unknown testid (List.replicate 65466 0)⟩

/-- The container `atkStream` parses to. -/
def atkPri : PriFile := ⟨List.replicate 65535 atkParsedSection⟩

/-- A section whose payload is one byte short of `2 ^ 32 - 40` bytes, so that
the `as u32` cast wraps the written length field to 1. -/
def bigSec : Section := ⟨0, 0, 0, .unknown testid (List.replicate 4294967257 0)⟩

/-- Scenario A's file with its reserved 16-bit field at offset 8 overwritten
with the non-zero value 1. -/
def c7bad : List Nat := setAt (PriFile.writeBytes emptyR priA) 8 [1, 0]

/-! ## Toolkit lemmas -/

@[simp] theorem u16Bytes_length (v : Nat) : (u16Bytes v).length = 2 := rfl

@[simp] theorem u32Bytes_length (v : Nat) : (u32Bytes v).length = 4 := rfl

@[simp] theorem MRM_PRI0_length : MRM_PRI0.length = 8 := rfl

@[simp] theorem MRM_PRI1_length : MRM_PRI1.length = 8 := rfl

@[simp] theorem MRM_PRI2_length : MRM_PRI2.length = 8 := rfl

@[simp] theorem MRM_PRIF_length : MRM_PRIF.length = 8 := rfl

theorem leVal_nil : leVal [] = 0 := rfl

theorem leVal_cons (b : Nat) (bs : List Nat) : leVal (b :: bs) = b + 256 * leVal bs := rfl

@[simp] theorem leVal_u16Bytes (v : Nat) : leVal (u16Bytes v) = v % 2 ^ 16 := by
  simp only [u16Bytes, leVal_cons, leVal_nil]
  omega

@[simp] theorem leVal_u32Bytes (v : Nat) : leVal (u32Bytes v) = v % 2 ^ 32 := by
  simp only [u32Bytes, leVal_cons, leVal_nil]
  omega

theorem u16Bytes_mod (v : Nat) : u16Bytes (v % 2 ^ 16) = u16Bytes v := by
  simp only [u16Bytes, List.cons.injEq, and_true]
  constructor
  · omega
  · omega

theorem u32Bytes_mod (v : Nat) : u32Bytes (v % 2 ^ 32) = u32Bytes v := by
  simp only [u32Bytes, List.cons.injEq, and_true]
  refine ⟨by omega, by omega, by omega, by omega⟩

theorem u16Bytes_mod' (v : Nat) : u16Bytes (v % 65536) = u16Bytes v := u16Bytes_mod v

theorem u32Bytes_mod' (v : Nat) : u32Bytes (v % 4294967296) = u32Bytes v := u32Bytes_mod v

theorem leVal_lt (bs : List Nat) (h : ∀ b ∈ bs, b < 256) : leVal bs < 256 ^ bs.length := by
  induction bs with
  | nil => simp [leVal_nil]
  | cons b bs ih =>
    have hb : b < 256 := h b (by simp)
    have ht : leVal bs < 256 ^ bs.length := ih fun x hx => h x (by simp [hx])
    simp only [leVal_cons, List.length_cons, pow_succ]
    calc b + 256 * leVal bs < 256 + 256 * leVal bs := by omega
    _ = 256 * (leVal bs + 1) := by ring
    _ ≤ 256 * 256 ^ bs.length := by
        have : leVal bs + 1 ≤ 256 ^ bs.length := ht
        exact Nat.mul_le_mul_left _ this
    _ = 256 ^ bs.length * 256 := by ring

@[simp] theorem slice_length_eq (d : List Nat) (p n : Nat) (h : p + n ≤ d.length) :
    (slice d p n).length = n := by
  simp only [slice, List.length_take, List.length_drop]
  omega

theorem slice_head (F B : List Nat) : slice (F ++ B) 0 F.length = F := by
  simp [slice]

theorem slice_peel (A B : List Nat) (p n : Nat) (h : A.length ≤ p) :
    slice (A ++ B) p n = slice B (p - A.length) n := by
  simp only [slice]
  rw [List.drop_append_eq_append_drop, List.drop_eq_nil_of_le h, List.nil_append]

theorem slice_inner (A B : List Nat) (p n : Nat) (h : p + n ≤ A.length) :
    slice (A ++ B) p n = slice A p n := by
  simp only [slice]
  rw [List.drop_append_eq_append_drop, List.take_append_eq_append_take]
  have h1 : n - (A.drop p).length = 0 := by
    simp only [List.length_drop]
    omega
  simp only [h1, List.take_zero, List.append_nil, slice]

theorem slice_exact (A F B : List Nat) (p n : Nat) (hp : p = A.length) (hn : n = F.length) :
    slice (A ++ F ++ B) p n = F := by
  subst hp hn
  rw [List.append_assoc, slice_peel A _ _ _ le_rfl]
  simp [slice_head]

theorem readBytes_eq (d : List Nat) (p n : Nat) (h : p + n ≤ d.length) :
    readBytes n ⟨d, p⟩ = some (slice d p n, ⟨d, p + n⟩) := by
  simp [readBytes, h, slice]

theorem readBytes_none (d : List Nat) (p n : Nat) (h : d.length < p + n) :
    readBytes n ⟨d, p⟩ = none := by
  simp only [readBytes]
  rw [if_neg]
  omega

theorem readU16_eq (d : List Nat) (p : Nat) (h : p + 2 ≤ d.length) :
    readU16 ⟨d, p⟩ = some (leVal (slice d p 2), ⟨d, p + 2⟩) := by
  simp [readU16, readBytes_eq d p 2 h]

theorem readU32_eq (d : List Nat) (p : Nat) (h : p + 4 ≤ d.length) :
    readU32 ⟨d, p⟩ = some (leVal (slice d p 4), ⟨d, p + 4⟩) := by
  simp [readU32, readBytes_eq d p 4 h]

theorem readU16_none (d : List Nat) (p : Nat) (h : d.length < p + 2) :
    readU16 ⟨d, p⟩ = none := by
  simp [readU16, readBytes_none d p 2 h]

theorem readU32_none (d : List Nat) (p : Nat) (h : d.length < p + 4) :
    readU32 ⟨d, p⟩ = none := by
  simp [readU32, readBytes_none d p 4 h]

@[simp] theorem seekTo_eval (p : Nat) (d : List Nat) (q : Nat) :
    seekTo p ⟨d, q⟩ = ⟨d, p⟩ := rfl

theorem setAt_exact (A F B bs : List Nat) (p : Nat) (hp : p = A.length)
    (hn : bs.length = F.length) : setAt (A ++ F ++ B) p bs = A ++ bs ++ B := by
  subst hp
  have e1 : A ++ F ++ B = A ++ (F ++ B) := List.append_assoc A F B
  simp only [setAt, e1]
  have ht : (A ++ (F ++ B)).take A.length = A := List.take_left A (F ++ B)
  have hd : (A ++ (F ++ B)).drop (A.length + bs.length) = B := by
    rw [List.drop_append_eq_append_drop, List.drop_eq_nil_of_le (by omega), List.nil_append]
    rw [List.drop_append_eq_append_drop, List.drop_eq_nil_of_le (by omega), List.nil_append]
    have h2 : A.length + bs.length - A.length - F.length = 0 := by omega
    rw [h2, List.drop_zero]
  rw [ht, hd, List.append_assoc]

theorem setAt_append_right (A B bs : List Nat) (p : Nat) (h : A.length ≤ p) :
    setAt (A ++ B) p bs = A ++ setAt B (p - A.length) bs := by
  simp only [setAt]
  rw [List.take_append_eq_append_take, List.take_of_length_le (by omega)]
  rw [List.drop_append_eq_append_drop, List.drop_eq_nil_of_le (by omega), List.nil_append]
  have h1 : p + bs.length - A.length = p - A.length + bs.length := by omega
  rw [h1]
  simp [List.append_assoc]

theorem setAt_append_left (A B bs : List Nat) (p : Nat) (h : p + bs.length ≤ A.length) :
    setAt (A ++ B) p bs = setAt A p bs ++ B := by
  simp only [setAt]
  rw [List.take_append_eq_append_take]
  have h0 : p - A.length = 0 := by omega
  rw [h0, List.take_zero, List.append_nil]
  rw [List.drop_append_eq_append_drop]
  have h1 : p + bs.length - A.length = 0 := by omega
  rw [h1, List.drop_zero]
  simp [List.append_assoc]

theorem writeRaw_at_end (bs : List Nat) (w : ByteSink) (h : w.pos = w.data.length) :
    writeRaw bs w = ⟨w.data ++ bs, w.pos + bs.length⟩ := by
  simp only [writeRaw, padTo, h]
  simp

theorem writeRaw_inside (bs : List Nat) (w : ByteSink) (h : w.pos + bs.length ≤ w.data.length) :
    writeRaw bs w = ⟨setAt w.data w.pos bs, w.pos + bs.length⟩ := by
  have h0 : w.pos - w.data.length = 0 := by omega
  simp [writeRaw, padTo, setAt, h0]

/-- At-end writes append; stated so that chains of writes rewrite iteratively. -/
theorem writeRaw_chain (bs d : List Nat) :
    writeRaw bs ⟨d, d.length⟩ = ⟨d ++ bs, (d ++ bs).length⟩ := by
  rw [writeRaw_at_end _ _ rfl]
  simp

theorem writeU16_chain (v : Nat) (d : List Nat) :
    writeU16 v ⟨d, d.length⟩ = ⟨d ++ u16Bytes v, (d ++ u16Bytes v).length⟩ := by
  rw [writeU16, writeRaw_chain]

theorem writeU32_chain (v : Nat) (d : List Nat) :
    writeU32 v ⟨d, d.length⟩ = ⟨d ++ u32Bytes v, (d ++ u32Bytes v).length⟩ := by
  rw [writeU32, writeRaw_chain]

/-! ## The writer's output in closed form -/

/-- Patch exactly over a same-length field in a right-associated decomposition. -/
theorem setAt_at (P F S bs : List Nat) (p : Nat) (hp : p = P.length)
    (hn : bs.length = F.length) : setAt (P ++ (F ++ S)) p bs = P ++ (bs ++ S) := by
  have h1 : P ++ (F ++ S) = P ++ F ++ S := (List.append_assoc P F S).symm
  have h2 : P ++ (bs ++ S) = P ++ bs ++ S := (List.append_assoc P bs S).symm
  rw [h1, h2, setAt_exact P F S bs p hp hn]

theorem secBytes_length (R : Registry) (s : Section)
    (h16 : s.data.section_identifier.length = 16) :
    (secBytes R s).length = blockLen R s := by
  simp [secBytes, blockLen, encLen, h16]
  omega

/-- Overwriting a same-length field, viewed through the buffer projection. -/
theorem patch_data (P F S bs : List Nat) (hn : bs.length = F.length) :
    (writeRaw bs ⟨P ++ (F ++ S), P.length⟩).data = P ++ (bs ++ S) := by
  rw [writeRaw_inside _ _ (by simp; omega)]
  exact setAt_at P F S bs P.length rfl hn

theorem Section_write_at_end (R : Registry) (s : Section) (d : List Nat)
    (h16 : s.data.section_identifier.length = 16) :
    Section.write R s ⟨d, d.length⟩ =
      ⟨d ++ secBytes R s, (d ++ secBytes R s).length⟩ := by
  simp only [Section.write, writeU16, writeU32, writeRaw_chain, seekW]
  have harg : (((d ++ s.data.section_identifier ++ u32Bytes s.section_qualifier ++
        u16Bytes s.flags ++ u16Bytes s.section_flags ++ u32Bytes 0 ++ u32Bytes 0 ++
        s.data.writeBytes R).length -
      (d ++ s.data.section_identifier ++ u32Bytes s.section_qualifier ++
        u16Bytes s.flags ++ u16Bytes s.section_flags ++ u32Bytes 0 ++
        u32Bytes 0).length) % 2 ^ 32 + 40) % 2 ^ 32 = secLenVal R s := by
    simp [secLenVal, encLen]
    omega
  rw [harg]
  rw [show d ++ s.data.section_identifier ++ u32Bytes s.section_qualifier ++
        u16Bytes s.flags ++ u16Bytes s.section_flags ++ u32Bytes 0 ++ u32Bytes 0 ++
        s.data.writeBytes R ++ u32Bytes 0xdef5fade ++ u32Bytes (secLenVal R s) =
      (d ++ (s.data.section_identifier ++ (u32Bytes s.section_qualifier ++
        (u16Bytes s.flags ++ u16Bytes s.section_flags)))) ++
        (u32Bytes 0 ++ (u32Bytes 0 ++ (s.data.writeBytes R ++
          (u32Bytes 0xdef5fade ++ u32Bytes (secLenVal R s))))) from by
    simp [List.append_assoc]]
  rw [show (d ++ s.data.section_identifier ++ u32Bytes s.section_qualifier ++
        u16Bytes s.flags ++ u16Bytes s.section_flags ++ u32Bytes 0 ++
        u32Bytes 0).length - 8 =
      (d ++ (s.data.section_identifier ++ (u32Bytes s.section_qualifier ++
        (u16Bytes s.flags ++ u16Bytes s.section_flags)))).length from by
    simp [h16]]
  rw [patch_data _ (u32Bytes 0) _ _ (by simp)]
  simp only [ByteSink.mk.injEq]
  constructor
  · simp [secBytes, List.append_assoc]
  · simp [secBytes, h16]
    omega

/-- Two consecutive overwrites of adjacent same-length fields. -/
theorem patch2_data (P F1 F2 S bs1 bs2 : List Nat) (h1 : bs1.length = F1.length)
    (h2 : bs2.length = F2.length) :
    writeRaw bs2 (writeRaw bs1 ⟨P ++ (F1 ++ (F2 ++ S)), P.length⟩) =
      ⟨P ++ (bs1 ++ (bs2 ++ S)), P.length + bs1.length + bs2.length⟩ := by
  rw [writeRaw_inside bs1 ⟨P ++ (F1 ++ (F2 ++ S)), P.length⟩ (by simp; omega)]
  rw [setAt_at P F1 (F2 ++ S) bs1 P.length rfl h1]
  rw [writeRaw_inside bs2 ⟨P ++ (bs1 ++ (F2 ++ S)), P.length + bs1.length⟩
    (by simp; omega)]
  rw [show P ++ (bs1 ++ (F2 ++ S)) = (P ++ bs1) ++ (F2 ++ S) from
    (List.append_assoc P bs1 (F2 ++ S)).symm]
  rw [setAt_at (P ++ bs1) F2 S bs2 (P.length + bs1.length) (by simp) h2]
  simp [List.append_assoc]

theorem tocPlaceholder_length (s : Section) (h16 : s.data.section_identifier.length = 16) :
    (tocPlaceholder s).length = 32 := by
  simp [tocPlaceholder, h16]

theorem tocEntryBytes_length (s : Section) (off len : Nat)
    (h16 : s.data.section_identifier.length = 16) :
    (tocEntryBytes s off len).length = 32 := by
  simp [tocEntryBytes, h16]

theorem placeToc_cons (s : Section) (ss : List Section) :
    placeToc (s :: ss) = tocPlaceholder s ++ placeToc ss := by
  simp [placeToc]

theorem placeToc_length (ss : List Section)
    (h16 : ∀ s ∈ ss, s.data.section_identifier.length = 16) :
    (placeToc ss).length = 32 * ss.length := by
  induction ss with
  | nil => simp [placeToc]
  | cons s ss ih =>
    rw [placeToc_cons]
    simp only [List.length_append, List.length_cons]
    rw [tocPlaceholder_length s (h16 s (by simp)), ih fun x hx => h16 x (by simp [hx])]
    ring

theorem mkToc_length (R : Registry) (ss : List Section) (off : Nat)
    (h16 : ∀ s ∈ ss, s.data.section_identifier.length = 16) :
    (mkToc R ss off).length = 32 * ss.length := by
  induction ss generalizing off with
  | nil => simp [mkToc]
  | cons s ss ih =>
    simp only [mkToc, List.length_append, List.length_cons]
    rw [tocEntryBytes_length s _ _ (h16 s (by simp)), ih _ fun x hx => h16 x (by simp [hx])]
    ring

theorem mkBlob_cons (R : Registry) (s : Section) (ss : List Section) :
    mkBlob R (s :: ss) = secBytes R s ++ mkBlob R ss := rfl

theorem u64Sub_of_le (a b : Nat) (h : b ≤ a) : u64Sub a b = a - b := if_pos h

theorem writeSections_steps (R : Registry) (ss : List Section) :
    ∀ (i : Nat) (C G : List Nat),
    (∀ s ∈ ss, s.data.section_identifier.length = 16) →
    C.length = 32 + 32 * i →
    writeSections R (30 + 32 * (i + ss.length)) ss i
        ⟨C ++ placeToc ss ++ G, (C ++ placeToc ss ++ G).length⟩ =
      ⟨C ++ mkToc R ss (2 + G.length) ++ (G ++ mkBlob R ss),
        (C ++ mkToc R ss (2 + G.length) ++ (G ++ mkBlob R ss)).length⟩ := by
  induction ss with
  | nil =>
    intro i C G h16 hC
    simp [writeSections, placeToc, mkToc, mkBlob]
  | cons s ss ih =>
    intro i C G h16 hC
    have h16s : s.data.section_identifier.length = 16 := h16 s (by simp)
    have h16ss : ∀ x ∈ ss, x.data.section_identifier.length = 16 :=
      fun x hx => h16 x (by simp [hx])
    have hpl : (placeToc (s :: ss)).length = 32 + 32 * ss.length := by
      rw [placeToc_length _ h16]
      simp
      ring
    simp only [writeSections]
    rw [Section_write_at_end R s (C ++ placeToc (s :: ss) ++ G) h16s]
    simp only [seekW, writeU32]
    have hoff : u64Sub (C ++ placeToc (s :: ss) ++ G).length
        (30 + 32 * (i + (s :: ss).length)) = 2 + G.length := by
      rw [u64Sub_of_le]
      · simp only [List.length_append, hpl, hC, List.length_cons]
        omega
      · simp only [List.length_append, hpl, hC, List.length_cons]
        omega
    rw [hoff]
    have hlen : ((C ++ placeToc (s :: ss) ++ G) ++ secBytes R s).length -
        (C ++ placeToc (s :: ss) ++ G).length = blockLen R s := by
      simp only [List.length_append, secBytes_length R s h16s]
      omega
    rw [hlen]
    rw [show (C ++ placeToc (s :: ss) ++ G ++ secBytes R s).length =
        ((C ++ tocEntryBytes s ((2 + G.length) % 2 ^ 32) (blockLen R s % 2 ^ 32)) ++
          placeToc ss ++ (G ++ secBytes R s)).length from by
      simp only [List.length_append, tocEntryBytes_length s _ _ h16s, hpl,
        placeToc_length ss h16ss]
      omega]
    rw [show C ++ placeToc (s :: ss) ++ G ++ secBytes R s =
        (C ++ (s.data.section_identifier ++
          [s.flags % 256, s.flags / 256 % 256, s.section_flags % 256,
            s.section_flags / 256 % 256, s.section_qualifier % 256,
            s.section_qualifier / 256 % 256])) ++
        ([s.section_qualifier / 2 ^ 16 % 256, s.section_qualifier / 2 ^ 24 % 256, 0, 0] ++
          ([0, 0, 0, 0] ++ ([0, 0] ++ (placeToc ss ++ (G ++ secBytes R s))))) from by
      simp [placeToc_cons, tocPlaceholder, u16Bytes, u32Bytes, List.append_assoc]]
    rw [show 30 + 32 * i + 24 =
        (C ++ (s.data.section_identifier ++
          [s.flags % 256, s.flags / 256 % 256, s.section_flags % 256,
            s.section_flags / 256 % 256, s.section_qualifier % 256,
            s.section_qualifier / 256 % 256])).length from by
      simp only [List.length_append, List.length_cons, List.length_nil, h16s, hC]
      omega]
    rw [patch2_data _ _ _ _ _ _ (by simp) (by simp)]
    simp only []
    rw [show (C ++ (s.data.section_identifier ++
          [s.flags % 256, s.flags / 256 % 256, s.section_flags % 256,
            s.section_flags / 256 % 256, s.section_qualifier % 256,
            s.section_qualifier / 256 % 256])) ++
        (u32Bytes ((2 + G.length) % 2 ^ 32) ++ (u32Bytes (blockLen R s % 2 ^ 32) ++
          ([0, 0] ++ (placeToc ss ++ (G ++ secBytes R s))))) =
        (C ++ tocEntryBytes s ((2 + G.length) % 2 ^ 32) (blockLen R s % 2 ^ 32)) ++
          placeToc ss ++ (G ++ secBytes R s) from by
      simp [tocEntryBytes, u16Bytes, u32Bytes, List.append_assoc]]
    rw [show 30 + 32 * (i + (s :: ss).length) = 30 + 32 * ((i + 1) + ss.length) from by
      simp only [List.length_cons]
      ring]
    rw [ih (i + 1) (C ++ tocEntryBytes s ((2 + G.length) % 2 ^ 32) (blockLen R s % 2 ^ 32))
      (G ++ secBytes R s) h16ss
      (by simp only [List.length_append, tocEntryBytes_length s _ _ h16s, hC]; ring)]
    have hG : 2 + (G ++ secBytes R s).length = 2 + G.length + blockLen R s := by
      simp only [List.length_append, secBytes_length R s h16s]
      omega
    rw [hG]
    simp only [mkToc, mkBlob_cons]
    simp [List.append_assoc]

theorem toc_fold_at_end (ss : List Section) (d : List Nat) :
    ss.foldl (fun w s => TocEntry.write ⟨s.data.section_identifier, s.flags,
      s.section_flags, s.section_qualifier, 0, 0⟩ w) ⟨d, d.length⟩ =
    ⟨d ++ placeToc ss, (d ++ placeToc ss).length⟩ := by
  induction ss generalizing d with
  | nil => simp [placeToc]
  | cons s ss ih =>
    simp only [List.foldl_cons]
    rw [show TocEntry.write ⟨s.data.section_identifier, s.flags, s.section_flags,
        s.section_qualifier, 0, 0⟩ ⟨d, d.length⟩ =
        ⟨d ++ tocPlaceholder s, (d ++ tocPlaceholder s).length⟩ from by
      simp only [TocEntry.write, writeU16, writeU32, writeRaw_chain]
      simp [tocPlaceholder, List.append_assoc]]
    rw [ih]
    simp [placeToc_cons, List.append_assoc]

theorem write_eq_mkFile (R : Registry) (f : PriFile)
    (h16 : ∀ s ∈ f.sections, s.data.section_identifier.length = 16) :
    PriFile.write R f ⟨[], 0⟩ = ⟨mkFile R f, 16⟩ := by
  rw [show (⟨[], 0⟩ : ByteSink) = ⟨[], ([] : List Nat).length⟩ from rfl]
  simp only [PriFile.write, writeU16, writeU32, writeRaw_chain, List.nil_append]
  rw [toc_fold_at_end]
  rw [show MRM_PRI2 ++ u16Bytes 0 ++ u16Bytes 1 ++ u32Bytes 0 ++ u32Bytes 30 ++
        u32Bytes ((f.sections.length * 32 + 30) % 2 ^ 32) ++
        u16Bytes (f.sections.length % 2 ^ 16) ++ u16Bytes 0xffff ++ u32Bytes 0 ++
        placeToc f.sections =
      (MRM_PRI2 ++ u16Bytes 0 ++ u16Bytes 1 ++ u32Bytes 0 ++ u32Bytes 30 ++
        u32Bytes ((f.sections.length * 32 + 30) % 2 ^ 32) ++
        u16Bytes (f.sections.length % 2 ^ 16) ++ u16Bytes 0xffff ++ u32Bytes 0) ++
        placeToc f.sections ++ ([] : List Nat) from by simp]
  rw [show f.sections.length * 32 + 30 = 30 + 32 * (0 + f.sections.length) from by ring]
  rw [writeSections_steps R f.sections 0 _ [] h16 (by simp)]
  simp only [List.length_nil, Nat.add_zero, List.nil_append]
  have htfs : (MRM_PRI2 ++ u16Bytes 0 ++ u16Bytes 1 ++ u32Bytes 0 ++ u32Bytes 30 ++
        u32Bytes ((30 + 32 * (0 + f.sections.length)) % 2 ^ 32) ++
        u16Bytes (f.sections.length % 2 ^ 16) ++ u16Bytes 0xffff ++ u32Bytes 0 ++
        mkToc R f.sections 2 ++ mkBlob R f.sections).length + 16 =
      totalLen R f := by
    simp only [List.length_append, MRM_PRI2_length, u16Bytes_length,
      u32Bytes_length, mkToc_length R f.sections _ h16, totalLen]
    omega
  rw [htfs]
  simp only [writeRaw_chain, seekW]
  rw [show MRM_PRI2 ++ u16Bytes 0 ++ u16Bytes 1 ++ u32Bytes 0 ++ u32Bytes 30 ++
        u32Bytes ((30 + 32 * (0 + f.sections.length)) % 2 ^ 32) ++
        u16Bytes (f.sections.length % 2 ^ 16) ++ u16Bytes 0xffff ++ u32Bytes 0 ++
        mkToc R f.sections 2 ++ mkBlob R f.sections ++ u32Bytes 0xdefffade ++
        u32Bytes (totalLen R f % 2 ^ 32) ++ MRM_PRI2 =
      (MRM_PRI2 ++ (u16Bytes 0 ++ u16Bytes 1)) ++ (u32Bytes 0 ++
        (u32Bytes 30 ++ (u32Bytes ((30 + 32 * (0 + f.sections.length)) % 2 ^ 32) ++
          (u16Bytes (f.sections.length % 2 ^ 16) ++ (u16Bytes 0xffff ++
            (u32Bytes 0 ++ (mkToc R f.sections 2 ++ (mkBlob R f.sections ++
              (u32Bytes 0xdefffade ++ (u32Bytes (totalLen R f % 2 ^ 32) ++
                MRM_PRI2)))))))))) from by simp [List.append_assoc]]
  rw [show (12 : Nat) = (MRM_PRI2 ++ (u16Bytes 0 ++ u16Bytes 1)).length from by simp]
  rw [writeRaw_inside _ _
    (by simp only [List.length_append, MRM_PRI2_length, u16Bytes_length, u32Bytes_length]
        omega)]
  rw [setAt_at _ (u32Bytes 0) _ _ _ rfl (by simp)]
  rw [show 30 + 32 * (0 + f.sections.length) = f.sections.length * 32 + 30 from by ring]
  simp only [ByteSink.mk.injEq]
  refine ⟨?_, by simp⟩
  simp [mkFile, header32, footer16, u32Bytes_mod, u32Bytes_mod', List.append_assoc]

/-! ## Reading back the writer's output -/

theorem u32Sub_of_le (a b : Nat) (h : b ≤ a) : u32Sub a b = a - b := if_pos h

theorem slice_field (PRE FIELD REST : List Nat) (p n : Nat)
    (hp : p = PRE.length) (hn : n = FIELD.length) :
    slice (PRE ++ (FIELD ++ REST)) p n = FIELD := by
  subst hp hn
  rw [slice_peel _ _ _ _ le_rfl, Nat.sub_self]
  exact slice_head FIELD REST

theorem secLenVal_eq (R : Registry) (s : Section) (hbl : blockLen R s < 2 ^ 32) :
    secLenVal R s = blockLen R s := by
  simp only [secLenVal, blockLen] at hbl ⊢
  omega

theorem Section_read_secBytes (R : Registry) (s : Section) (A B : List Nat)
    (hwf : SectionWF R s) (hrt : CodecRT R) (hbl : blockLen R s < 2 ^ 32) :
    Section.read R ⟨A ++ secBytes R s ++ B, A.length⟩ =
      some (s, ⟨A ++ secBytes R s ++ B, A.length + blockLen R s⟩) := by
  obtain ⟨h16, hq, hf, hsf, hdisp⟩ := hwf
  have hD : (A ++ secBytes R s ++ B).length = A.length + blockLen R s + B.length := by
    simp [secBytes_length R s h16]
    omega
  have hbl40 : 40 ≤ blockLen R s := by simp [blockLen]
  have henc : encLen R s = blockLen R s - 40 := by simp [blockLen]
  have hsec : A ++ secBytes R s ++ B =
      A ++ (s.data.section_identifier ++ (u32Bytes s.section_qualifier ++
        (u16Bytes s.flags ++ (u16Bytes s.section_flags ++ (u32Bytes (secLenVal R s) ++
          (u32Bytes 0 ++ (s.data.writeBytes R ++ (u32Bytes 0xdef5fade ++
            (u32Bytes (secLenVal R s) ++ B))))))))) := by
    simp [secBytes, List.append_assoc]
  have r1 : readBytes 16 ⟨A ++ secBytes R s ++ B, A.length⟩ =
      some (s.data.section_identifier, ⟨A ++ secBytes R s ++ B, A.length + 16⟩) := by
    rw [readBytes_eq _ _ _ (by omega)]
    rw [show slice (A ++ secBytes R s ++ B) A.length 16 = s.data.section_identifier from by
      rw [hsec]
      exact slice_field _ _ _ _ _ rfl h16.symm]
  have r2 : readU32 ⟨A ++ secBytes R s ++ B, A.length + 16⟩ =
      some (s.section_qualifier, ⟨A ++ secBytes R s ++ B, A.length + 16 + 4⟩) := by
    rw [readU32_eq _ _ (by omega)]
    rw [show slice (A ++ secBytes R s ++ B) (A.length + 16) 4 =
        u32Bytes s.section_qualifier from by
      rw [hsec, show A ++ (s.data.section_identifier ++ (u32Bytes s.section_qualifier ++
          (u16Bytes s.flags ++ (u16Bytes s.section_flags ++ (u32Bytes (secLenVal R s) ++
            (u32Bytes 0 ++ (s.data.writeBytes R ++ (u32Bytes 0xdef5fade ++
              (u32Bytes (secLenVal R s) ++ B))))))))) =
        (A ++ s.data.section_identifier) ++ (u32Bytes s.section_qualifier ++
          (u16Bytes s.flags ++ (u16Bytes s.section_flags ++ (u32Bytes (secLenVal R s) ++
            (u32Bytes 0 ++ (s.data.writeBytes R ++ (u32Bytes 0xdef5fade ++
              (u32Bytes (secLenVal R s) ++ B)))))))) from by
        simp [List.append_assoc]]
      exact slice_field _ _ _ _ _ (by simp [h16]) rfl]
    simp only [leVal_u32Bytes, Nat.mod_eq_of_lt hq]
  have r3 : readU16 ⟨A ++ secBytes R s ++ B, A.length + 16 + 4⟩ =
      some (s.flags, ⟨A ++ secBytes R s ++ B, A.length + 16 + 4 + 2⟩) := by
    rw [readU16_eq _ _ (by omega)]
    rw [show slice (A ++ secBytes R s ++ B) (A.length + 16 + 4) 2 = u16Bytes s.flags from by
      rw [hsec, show A ++ (s.data.section_identifier ++ (u32Bytes s.section_qualifier ++
          (u16Bytes s.flags ++ (u16Bytes s.section_flags ++ (u32Bytes (secLenVal R s) ++
            (u32Bytes 0 ++ (s.data.writeBytes R ++ (u32Bytes 0xdef5fade ++
              (u32Bytes (secLenVal R s) ++ B))))))))) =
        (A ++ s.data.section_identifier ++ u32Bytes s.section_qualifier) ++
          (u16Bytes s.flags ++ (u16Bytes s.section_flags ++ (u32Bytes (secLenVal R s) ++
            (u32Bytes 0 ++ (s.data.writeBytes R ++ (u32Bytes 0xdef5fade ++
              (u32Bytes (secLenVal R s) ++ B))))))) from by
        simp [List.append_assoc]]
      exact slice_field _ _ _ _ _ (by simp [h16]) rfl]
    simp only [leVal_u16Bytes, Nat.mod_eq_of_lt hf]
  have r4 : readU16 ⟨A ++ secBytes R s ++ B, A.length + 16 + 4 + 2⟩ =
      some (s.section_flags, ⟨A ++ secBytes R s ++ B, A.length + 16 + 4 + 2 + 2⟩) := by
    rw [readU16_eq _ _ (by omega)]
    rw [show slice (A ++ secBytes R s ++ B) (A.length + 16 + 4 + 2) 2 =
        u16Bytes s.section_flags from by
      rw [hsec, show A ++ (s.data.section_identifier ++ (u32Bytes s.section_qualifier ++
          (u16Bytes s.flags ++ (u16Bytes s.section_flags ++ (u32Bytes (secLenVal R s) ++
            (u32Bytes 0 ++ (s.data.writeBytes R ++ (u32Bytes 0xdef5fade ++
              (u32Bytes (secLenVal R s) ++ B))))))))) =
        (A ++ s.data.section_identifier ++ u32Bytes s.section_qualifier ++
          u16Bytes s.flags) ++ (u16Bytes s.section_flags ++ (u32Bytes (secLenVal R s) ++
            (u32Bytes 0 ++ (s.data.writeBytes R ++ (u32Bytes 0xdef5fade ++
              (u32Bytes (secLenVal R s) ++ B)))))) from by
        simp [List.append_assoc]]
      exact slice_field _ _ _ _ _ (by simp [h16]) rfl]
    simp only [leVal_u16Bytes, Nat.mod_eq_of_lt hsf]
  have r5 : readU32 ⟨A ++ secBytes R s ++ B, A.length + 16 + 4 + 2 + 2⟩ =
      some (blockLen R s, ⟨A ++ secBytes R s ++ B, A.length + 16 + 4 + 2 + 2 + 4⟩) := by
    rw [readU32_eq _ _ (by omega)]
    rw [show slice (A ++ secBytes R s ++ B) (A.length + 16 + 4 + 2 + 2) 4 =
        u32Bytes (secLenVal R s) from by
      rw [hsec, show A ++ (s.data.section_identifier ++ (u32Bytes s.section_qualifier ++
          (u16Bytes s.flags ++ (u16Bytes s.section_flags ++ (u32Bytes (secLenVal R s) ++
            (u32Bytes 0 ++ (s.data.writeBytes R ++ (u32Bytes 0xdef5fade ++
              (u32Bytes (secLenVal R s) ++ B))))))))) =
        (A ++ s.data.section_identifier ++ u32Bytes s.section_qualifier ++
          u16Bytes s.flags ++ u16Bytes s.section_flags) ++ (u32Bytes (secLenVal R s) ++
            (u32Bytes 0 ++ (s.data.writeBytes R ++ (u32Bytes 0xdef5fade ++
              (u32Bytes (secLenVal R s) ++ B))))) from by
        simp [List.append_assoc]]
      exact slice_field _ _ _ _ _ (by simp [h16]) rfl]
    rw [secLenVal_eq R s hbl]
    simp only [leVal_u32Bytes, Nat.mod_eq_of_lt hbl]
  have r6 : readU32 ⟨A ++ secBytes R s ++ B, A.length + 16 + 4 + 2 + 2 + 4⟩ =
      some (0, ⟨A ++ secBytes R s ++ B, A.length + 16 + 4 + 2 + 2 + 4 + 4⟩) := by
    rw [readU32_eq _ _ (by omega)]
    rw [show slice (A ++ secBytes R s ++ B) (A.length + 16 + 4 + 2 + 2 + 4) 4 =
        u32Bytes 0 from by
      rw [hsec, show A ++ (s.data.section_identifier ++ (u32Bytes s.section_qualifier ++
          (u16Bytes s.flags ++ (u16Bytes s.section_flags ++ (u32Bytes (secLenVal R s) ++
            (u32Bytes 0 ++ (s.data.writeBytes R ++ (u32Bytes 0xdef5fade ++
              (u32Bytes (secLenVal R s) ++ B))))))))) =
        (A ++ s.data.section_identifier ++ u32Bytes s.section_qualifier ++
          u16Bytes s.flags ++ u16Bytes s.section_flags ++ u32Bytes (secLenVal R s)) ++
          (u32Bytes 0 ++ (s.data.writeBytes R ++ (u32Bytes 0xdef5fade ++
              (u32Bytes (secLenVal R s) ++ B)))) from by
        simp [List.append_assoc]]
      exact slice_field _ _ _ _ _ (by simp [h16]) rfl]
    simp
  have hsub : u32Sub (u32Sub (blockLen R s) 16) 24 = encLen R s := by
    have h1 : u32Sub (blockLen R s) 16 = blockLen R s - 16 := u32Sub_of_le _ _ (by omega)
    rw [h1, u32Sub_of_le _ _ (by omega)]
    omega
  have rdisp : ∃ q : Nat, SectionData.read R s.data.section_identifier (encLen R s)
      ⟨A ++ secBytes R s ++ B, A.length + 16 + 4 + 2 + 2 + 4 + 4⟩ =
      some (s.data, ⟨A ++ secBytes R s ++ B, q⟩) := by
    cases hd : s.data with
    | known id v =>
      have hdispk : (findCodec R id).isSome := by
        have := hdisp
        rw [hd] at this
        exact this
      obtain ⟨c, hc⟩ := Option.isSome_iff_exists.mp hdispk
      have hmem : c ∈ R := List.mem_of_find?_eq_some hc
      have hid2 : s.data.section_identifier = id := by rw [hd]; rfl
      have h16id : id.length = 16 := hid2 ▸ h16
      have hwb : s.data.writeBytes R = c.encode v := by
        simp only [hd, SectionData.writeBytes, hc]
      have hencv : encLen R s = (c.encode v).length := by
        simp only [encLen, hwb]
      have hlist : A ++ secBytes R s ++ B =
          (A ++ (id ++ (u32Bytes s.section_qualifier ++ (u16Bytes s.flags ++
            (u16Bytes s.section_flags ++ (u32Bytes (secLenVal R s) ++ u32Bytes 0)))))) ++
          c.encode v ++
          (u32Bytes 0xdef5fade ++ (u32Bytes (secLenVal R s) ++ B)) := by
        rw [hsec, hid2, hwb]
        simp [List.append_assoc]
      obtain ⟨p, hp⟩ := hrt c hmem v
        (A ++ (id ++ (u32Bytes s.section_qualifier ++ (u16Bytes s.flags ++
          (u16Bytes s.section_flags ++ (u32Bytes (secLenVal R s) ++ u32Bytes 0))))))
        (u32Bytes 0xdef5fade ++ (u32Bytes (secLenVal R s) ++ B))
      refine ⟨p, ?_⟩
      rw [hlist]
      simp only [SectionData.section_identifier]
      rw [show A.length + 16 + 4 + 2 + 2 + 4 + 4 =
          (A ++ (id ++ (u32Bytes s.section_qualifier ++ (u16Bytes s.flags ++
            (u16Bytes s.section_flags ++ (u32Bytes (secLenVal R s) ++
              u32Bytes 0)))))).length from by
        simp [h16id]]
      simp only [SectionData.read, hc, hencv, hp]
      simp
    | unknown id bs =>
      have hdispu : findCodec R id = none := by
        have := hdisp
        rw [hd] at this
        exact this
      have hid2 : s.data.section_identifier = id := by rw [hd]; rfl
      have hwb : s.data.writeBytes R = bs := by simp only [hd, SectionData.writeBytes]
      have hencv : encLen R s = bs.length := by simp only [encLen, hwb]
      have hlenfld : (A ++ secBytes R s ++ B).length -
          (A.length + 16 + 4 + 2 + 2 + 4 + 4) =
          (bs ++ (u32Bytes 0xdef5fade ++ (u32Bytes (secLenVal R s) ++ B))).length := by
        simp only [hD, List.length_append, u32Bytes_length]
        omega
      have hdrop : (A ++ secBytes R s ++ B).drop (A.length + 16 + 4 + 2 + 2 + 4 + 4) =
          bs ++ (u32Bytes 0xdef5fade ++ (u32Bytes (secLenVal R s) ++ B)) := by
        rw [show (A ++ secBytes R s ++ B).drop (A.length + 16 + 4 + 2 + 2 + 4 + 4) =
            slice (A ++ secBytes R s ++ B) (A.length + 16 + 4 + 2 + 2 + 4 + 4)
              ((A ++ secBytes R s ++ B).length - (A.length + 16 + 4 + 2 + 2 + 4 + 4))
              from by
          simp [slice, List.take_of_length_le]]
        rw [show slice (A ++ secBytes R s ++ B) (A.length + 16 + 4 + 2 + 2 + 4 + 4)
            ((A ++ secBytes R s ++ B).length - (A.length + 16 + 4 + 2 + 2 + 4 + 4)) =
            bs ++ (u32Bytes 0xdef5fade ++ (u32Bytes (secLenVal R s) ++ B)) from by
          rw [hsec, hid2, hwb, show A ++ (id ++
              (u32Bytes s.section_qualifier ++ (u16Bytes s.flags ++
                (u16Bytes s.section_flags ++ (u32Bytes (secLenVal R s) ++
                  (u32Bytes 0 ++ (bs ++ (u32Bytes 0xdef5fade ++
                    (u32Bytes (secLenVal R s) ++ B))))))))) =
            (A ++ id ++ u32Bytes s.section_qualifier ++
              u16Bytes s.flags ++ u16Bytes s.section_flags ++ u32Bytes (secLenVal R s) ++
              u32Bytes 0) ++ ((bs ++ (u32Bytes 0xdef5fade ++
                (u32Bytes (secLenVal R s) ++ B))) ++ ([] : List Nat)) from by
            simp [List.append_assoc]]
          rw [slice_field _ _ _ _ _
            (by simp only [List.length_append, u32Bytes_length,
                  u16Bytes_length, hid2 ▸ h16] <;> omega)
            (by simp only [List.length_append, List.length_nil, u32Bytes_length,
                  u16Bytes_length, hid2 ▸ h16] <;> omega)]]
      have hbs : ((A ++ secBytes R s ++ B).drop
          (A.length + 16 + 4 + 2 + 2 + 4 + 4)).take (encLen R s) = bs := by
        rw [hdrop, List.take_append_eq_append_take,
          show encLen R s - bs.length = 0 from by omega, List.take_zero, List.append_nil,
          List.take_of_length_le (by omega)]
      refine ⟨A.length + 16 + 4 + 2 + 2 + 4 + 4 +
        min (encLen R s) ((A ++ secBytes R s ++ B).length -
          (A.length + 16 + 4 + 2 + 2 + 4 + 4)), ?_⟩
      simp only [SectionData.section_identifier]
      simp only [SectionData.read, hdispu, hbs]
  obtain ⟨q, hq⟩ := rdisp
  have hfoot : u64Sub (A.length + blockLen R s) 8 = A.length + 32 + encLen R s := by
    rw [u64Sub_of_le _ _ (by omega)]
    omega
  have r7 : readU32 ⟨A ++ secBytes R s ++ B, A.length + 32 + encLen R s⟩ =
      some (0xdef5fade, ⟨A ++ secBytes R s ++ B, A.length + 32 + encLen R s + 4⟩) := by
    rw [readU32_eq _ _ (by omega)]
    rw [show slice (A ++ secBytes R s ++ B) (A.length + 32 + encLen R s) 4 =
        u32Bytes 0xdef5fade from by
      rw [hsec, show A ++ (s.data.section_identifier ++ (u32Bytes s.section_qualifier ++
          (u16Bytes s.flags ++ (u16Bytes s.section_flags ++ (u32Bytes (secLenVal R s) ++
            (u32Bytes 0 ++ (s.data.writeBytes R ++ (u32Bytes 0xdef5fade ++
              (u32Bytes (secLenVal R s) ++ B))))))))) =
        (A ++ s.data.section_identifier ++ u32Bytes s.section_qualifier ++
          u16Bytes s.flags ++ u16Bytes s.section_flags ++ u32Bytes (secLenVal R s) ++
          u32Bytes 0 ++ s.data.writeBytes R) ++ (u32Bytes 0xdef5fade ++
              (u32Bytes (secLenVal R s) ++ B)) from by
        simp [List.append_assoc]]
      exact slice_field _ _ _ _ _ (by simp [h16, encLen]; omega) rfl]
    simp
  have r8 : readU32 ⟨A ++ secBytes R s ++ B, A.length + 32 + encLen R s + 4⟩ =
      some (blockLen R s, ⟨A ++ secBytes R s ++ B, A.length + 32 + encLen R s + 4 + 4⟩) := by
    rw [readU32_eq _ _ (by omega)]
    rw [show slice (A ++ secBytes R s ++ B) (A.length + 32 + encLen R s + 4) 4 =
        u32Bytes (secLenVal R s) from by
      rw [hsec, show A ++ (s.data.section_identifier ++ (u32Bytes s.section_qualifier ++
          (u16Bytes s.flags ++ (u16Bytes s.section_flags ++ (u32Bytes (secLenVal R s) ++
            (u32Bytes 0 ++ (s.data.writeBytes R ++ (u32Bytes 0xdef5fade ++
              (u32Bytes (secLenVal R s) ++ B))))))))) =
        (A ++ s.data.section_identifier ++ u32Bytes s.section_qualifier ++
          u16Bytes s.flags ++ u16Bytes s.section_flags ++ u32Bytes (secLenVal R s) ++
          u32Bytes 0 ++ s.data.writeBytes R ++ u32Bytes 0xdef5fade) ++
          (u32Bytes (secLenVal R s) ++ B) from by
        simp [List.append_assoc]]
      exact slice_field _ _ _ _ _ (by simp [h16, encLen]; omega) rfl]
    rw [secLenVal_eq R s hbl]
    simp only [leVal_u32Bytes, Nat.mod_eq_of_lt hbl]
  simp only [Section.read, r1, r2, r3, r4, r5, r6, hsub, hq, seekTo_eval, hfoot, r7, r8]
  simp only [ne_eq, not_true_eq_false, if_false, if_neg]
  rw [show A.length + 32 + encLen R s + 4 + 4 = A.length + blockLen R s from by
    simp only [blockLen]
    omega]

theorem readToc_mkToc (R : Registry) (ss : List Section) :
    ∀ (off : Nat) (A B : List Nat),
    (∀ s ∈ ss, s.data.section_identifier.length = 16) →
    32 ≤ A.length →
    ∃ es : List TocEntry,
      readToc ss.length ⟨A ++ mkToc R ss off ++ B, A.length - 2⟩ =
        some (es, ⟨A ++ mkToc R ss off ++ B, A.length - 2 + 32 * ss.length⟩) ∧
      es.map TocEntry.section_offset = offsets R ss off := by
  induction ss with
  | nil =>
    intro off A B h16 hA
    exact ⟨[], by simp [readToc, mkToc, offsets]⟩
  | cons s ss ih =>
    intro off A B h16 hA
    have h16s : s.data.section_identifier.length = 16 := h16 s (by simp)
    have h16ss : ∀ x ∈ ss, x.data.section_identifier.length = 16 :=
      fun x hx => h16 x (by simp [hx])
    have hE : (tocEntryBytes s (off % 2 ^ 32) (blockLen R s % 2 ^ 32)).length = 32 :=
      tocEntryBytes_length s _ _ h16s
    have hDlen : (A ++ mkToc R (s :: ss) off ++ B).length =
        A.length + 32 + 32 * ss.length + B.length := by
      simp only [List.length_append, mkToc_length R (s :: ss) off h16, List.length_cons]
      ring
    have hoffmod : off % 2 ^ 32 % 2 ^ 32 = off % 2 ^ 32 := by omega
    have hE5 : readU32 ⟨A ++ mkToc R (s :: ss) off ++ B,
        A.length - 2 + 16 + 2 + 2 + 4⟩ = some (off % 2 ^ 32,
        ⟨A ++ mkToc R (s :: ss) off ++ B, A.length - 2 + 16 + 2 + 2 + 4 + 4⟩) := by
      rw [readU32_eq _ _ (by rw [hDlen]; omega)]
      rw [show A.length - 2 + 16 + 2 + 2 + 4 = A.length + 22 from by omega]
      rw [show slice (A ++ mkToc R (s :: ss) off ++ B) (A.length + 22) 4 =
          u32Bytes (off % 2 ^ 32) from by
        rw [show A ++ mkToc R (s :: ss) off ++ B =
            (A ++ (s.data.section_identifier ++ (u16Bytes s.flags ++
              (u16Bytes s.section_flags ++ (u32Bytes s.section_qualifier).take 2)))) ++
            (u32Bytes (off % 2 ^ 32) ++ (u32Bytes (blockLen R s % 2 ^ 32) ++
              ([0, 0] ++ (mkToc R ss (off + blockLen R s) ++ B)))) from by
          simp [mkToc, tocEntryBytes, List.append_assoc]]
        exact slice_field _ _ _ _ _
          (by simp only [List.length_append, u16Bytes_length, List.length_take,
                u32Bytes_length, h16s] <;> omega) rfl]
      rw [leVal_u32Bytes, hoffmod]
    obtain ⟨es', hread', hoff'⟩ := ih (off + blockLen R s)
      (A ++ tocEntryBytes s (off % 2 ^ 32) (blockLen R s % 2 ^ 32)) B h16ss
      (by simp only [List.length_append, hE]; omega)
    have hreshape : A ++ mkToc R (s :: ss) off ++ B =
        (A ++ tocEntryBytes s (off % 2 ^ 32) (blockLen R s % 2 ^ 32)) ++
          mkToc R ss (off + blockLen R s) ++ B := by
      simp [mkToc, List.append_assoc]
    rw [hreshape] at hE5 ⊢
    have hpos' : (A ++ tocEntryBytes s (off % 2 ^ 32)
        (blockLen R s % 2 ^ 32)).length - 2 = A.length + 30 := by
      simp only [List.length_append, hE]
      omega
    rw [hpos'] at hread'
    refine ⟨⟨slice ((A ++ tocEntryBytes s (off % 2 ^ 32) (blockLen R s % 2 ^ 32)) ++
        mkToc R ss (off + blockLen R s) ++ B) (A.length - 2) 16,
      leVal (slice ((A ++ tocEntryBytes s (off % 2 ^ 32) (blockLen R s % 2 ^ 32)) ++
        mkToc R ss (off + blockLen R s) ++ B) (A.length - 2 + 16) 2),
      leVal (slice ((A ++ tocEntryBytes s (off % 2 ^ 32) (blockLen R s % 2 ^ 32)) ++
        mkToc R ss (off + blockLen R s) ++ B) (A.length - 2 + 16 + 2) 2),
      leVal (slice ((A ++ tocEntryBytes s (off % 2 ^ 32) (blockLen R s % 2 ^ 32)) ++
        mkToc R ss (off + blockLen R s) ++ B) (A.length - 2 + 16 + 2 + 2) 4),
      off % 2 ^ 32,
      leVal (slice ((A ++ tocEntryBytes s (off % 2 ^ 32) (blockLen R s % 2 ^ 32)) ++
        mkToc R ss (off + blockLen R s) ++ B) (A.length - 2 + 16 + 2 + 2 + 4 + 4) 4)⟩ ::
      es', ?_, ?_⟩
    · have hDlen2 : ((A ++ tocEntryBytes s (off % 2 ^ 32) (blockLen R s % 2 ^ 32)) ++
          mkToc R ss (off + blockLen R s) ++ B).length =
          A.length + 32 + 32 * ss.length + B.length := by
        simp only [List.length_append, hE, mkToc_length R ss _ h16ss] <;> omega
      simp only [List.length_cons, readToc]
      rw [TocEntry.read]
      rw [readBytes_eq _ _ _ (by rw [hDlen2]; omega)]
      simp only []
      rw [readU16_eq _ _ (by rw [hDlen2]; omega)]
      simp only []
      rw [readU16_eq _ _ (by rw [hDlen2]; omega)]
      simp only []
      rw [readU32_eq _ _ (by rw [hDlen2]; omega)]
      simp only []
      rw [hE5]
      simp only []
      rw [readU32_eq _ _ (by rw [hDlen2]; omega)]
      simp only []
      rw [show A.length - 2 + 16 + 2 + 2 + 4 + 4 + 4 = A.length + 30 from by omega]
      rw [hread']
      simp only [Option.some.injEq, Prod.mk.injEq, ByteStream.mk.injEq, List.cons.injEq,
        true_and, and_true]
      omega
    · simp only [List.map_cons, hoff', offsets, TocEntry.section_offset]

theorem readSections_mkBlob (R : Registry) (ss : List Section) :
    ∀ (es : List TocEntry) (o sso : Nat) (P B : List Nat) (q : Nat),
    (∀ s ∈ ss, SectionWF R s) → CodecRT R →
    es.map TocEntry.section_offset = offsets R ss o →
    sso + o = P.length →
    o + (mkBlob R ss).length < 2 ^ 32 →
    ∃ r : ByteStream,
      readSections R sso es ⟨P ++ mkBlob R ss ++ B, q⟩ = some (ss, r) := by
  induction ss with
  | nil =>
    intro es o sso P B q hwf hrt hmap hP ho
    have hes : es = [] := by
      have := congrArg List.length hmap
      simp only [List.length_map, offsets, List.length_nil] at this
      exact List.eq_nil_of_length_eq_zero this
    subst hes
    exact ⟨⟨P ++ mkBlob R [] ++ B, q⟩, rfl⟩
  | cons s ss ih =>
    intro es o sso P B q hwf hrt hmap hP ho
    have hwfs : SectionWF R s := hwf s (by simp)
    have hwfss : ∀ x ∈ ss, SectionWF R x := fun x hx => hwf x (by simp [hx])
    have h16s : s.data.section_identifier.length = 16 := hwfs.1
    cases es with
    | nil => simp [offsets] at hmap
    | cons e es' =>
      simp only [List.map_cons, offsets, List.cons.injEq] at hmap
      obtain ⟨hoffe, hmap'⟩ := hmap
      have hblobc : (mkBlob R (s :: ss)).length =
          blockLen R s + (mkBlob R ss).length := by
        simp only [mkBlob_cons, List.length_append, secBytes_length R s h16s]
      have hbl : blockLen R s < 2 ^ 32 := by omega
      have homod : o % 2 ^ 32 = o := Nat.mod_eq_of_lt (by omega)
      have hD : P ++ mkBlob R (s :: ss) ++ B =
          P ++ secBytes R s ++ (mkBlob R ss ++ B) := by
        simp [mkBlob_cons, List.append_assoc]
      simp only [readSections]
      rw [hoffe, homod, seekTo_eval]
      rw [show sso + o = P.length from hP]
      rw [hD]
      rw [Section_read_secBytes R s P (mkBlob R ss ++ B) hwfs hrt hbl]
      simp only []
      obtain ⟨r', hr'⟩ := ih es' (o + blockLen R s) sso (P ++ secBytes R s) B
        (P.length + blockLen R s) hwfss hrt hmap'
        (by simp only [List.length_append, secBytes_length R s h16s]; omega)
        (by omega)
      rw [show P ++ secBytes R s ++ (mkBlob R ss ++ B) =
          (P ++ secBytes R s) ++ mkBlob R ss ++ B from by
        simp [List.append_assoc]]
      rw [hr']
      exact ⟨r', rfl⟩

theorem header32_length (tfs sso ns : Nat) : (header32 tfs sso ns).length = 32 := by
  simp [header32]

theorem header32_split (tfs sso ns : Nat) (REST : List Nat) :
    header32 tfs sso ns ++ REST =
      MRM_PRI2 ++ (u16Bytes 0 ++ (u16Bytes 1 ++ (u32Bytes tfs ++ (u32Bytes 30 ++
        (u32Bytes sso ++ (u16Bytes ns ++ (u16Bytes 0xffff ++ (u32Bytes 0 ++
          REST)))))))) := by
  simp [header32, List.append_assoc]

theorem slice_h0 (tfs sso ns : Nat) (REST : List Nat) :
    slice (header32 tfs sso ns ++ REST) 0 8 = MRM_PRI2 := by
  rw [header32_split]
  rw [show (8 : Nat) = MRM_PRI2.length from rfl]
  exact slice_head MRM_PRI2 _

theorem slice_h8 (tfs sso ns : Nat) (REST : List Nat) :
    slice (header32 tfs sso ns ++ REST) 8 2 = u16Bytes 0 := by
  rw [header32_split]
  exact slice_field _ _ _ _ _ (by simp) rfl

theorem slice_h10 (tfs sso ns : Nat) (REST : List Nat) :
    slice (header32 tfs sso ns ++ REST) 10 2 = u16Bytes 1 := by
  rw [header32_split]
  rw [show MRM_PRI2 ++ (u16Bytes 0 ++ (u16Bytes 1 ++ (u32Bytes tfs ++ (u32Bytes 30 ++
      (u32Bytes sso ++ (u16Bytes ns ++ (u16Bytes 0xffff ++ (u32Bytes 0 ++ REST)))))))) =
    (MRM_PRI2 ++ u16Bytes 0) ++ (u16Bytes 1 ++ (u32Bytes tfs ++ (u32Bytes 30 ++
      (u32Bytes sso ++ (u16Bytes ns ++ (u16Bytes 0xffff ++ (u32Bytes 0 ++ REST))))))) from by
    simp [List.append_assoc]]
  exact slice_field _ _ _ _ _ (by simp) rfl

theorem slice_h12 (tfs sso ns : Nat) (REST : List Nat) :
    slice (header32 tfs sso ns ++ REST) 12 4 = u32Bytes tfs := by
  rw [header32_split]
  rw [show MRM_PRI2 ++ (u16Bytes 0 ++ (u16Bytes 1 ++ (u32Bytes tfs ++ (u32Bytes 30 ++
      (u32Bytes sso ++ (u16Bytes ns ++ (u16Bytes 0xffff ++ (u32Bytes 0 ++ REST)))))))) =
    (MRM_PRI2 ++ u16Bytes 0 ++ u16Bytes 1) ++ (u32Bytes tfs ++ (u32Bytes 30 ++
      (u32Bytes sso ++ (u16Bytes ns ++ (u16Bytes 0xffff ++ (u32Bytes 0 ++ REST)))))) from by
    simp [List.append_assoc]]
  exact slice_field _ _ _ _ _ (by simp) rfl

theorem slice_h16 (tfs sso ns : Nat) (REST : List Nat) :
    slice (header32 tfs sso ns ++ REST) 16 4 = u32Bytes 30 := by
  rw [header32_split]
  rw [show MRM_PRI2 ++ (u16Bytes 0 ++ (u16Bytes 1 ++ (u32Bytes tfs ++ (u32Bytes 30 ++
      (u32Bytes sso ++ (u16Bytes ns ++ (u16Bytes 0xffff ++ (u32Bytes 0 ++ REST)))))))) =
    (MRM_PRI2 ++ u16Bytes 0 ++ u16Bytes 1 ++ u32Bytes tfs) ++ (u32Bytes 30 ++
      (u32Bytes sso ++ (u16Bytes ns ++ (u16Bytes 0xffff ++ (u32Bytes 0 ++ REST))))) from by
    simp [List.append_assoc]]
  exact slice_field _ _ _ _ _ (by simp) rfl

theorem slice_h20 (tfs sso ns : Nat) (REST : List Nat) :
    slice (header32 tfs sso ns ++ REST) 20 4 = u32Bytes sso := by
  rw [header32_split]
  rw [show MRM_PRI2 ++ (u16Bytes 0 ++ (u16Bytes 1 ++ (u32Bytes tfs ++ (u32Bytes 30 ++
      (u32Bytes sso ++ (u16Bytes ns ++ (u16Bytes 0xffff ++ (u32Bytes 0 ++ REST)))))))) =
    (MRM_PRI2 ++ u16Bytes 0 ++ u16Bytes 1 ++ u32Bytes tfs ++ u32Bytes 30) ++
      (u32Bytes sso ++ (u16Bytes ns ++ (u16Bytes 0xffff ++ (u32Bytes 0 ++ REST)))) from by
    simp [List.append_assoc]]
  exact slice_field _ _ _ _ _ (by simp) rfl

theorem slice_h24 (tfs sso ns : Nat) (REST : List Nat) :
    slice (header32 tfs sso ns ++ REST) 24 2 = u16Bytes ns := by
  rw [header32_split]
  rw [show MRM_PRI2 ++ (u16Bytes 0 ++ (u16Bytes 1 ++ (u32Bytes tfs ++ (u32Bytes 30 ++
      (u32Bytes sso ++ (u16Bytes ns ++ (u16Bytes 0xffff ++ (u32Bytes 0 ++ REST)))))))) =
    (MRM_PRI2 ++ u16Bytes 0 ++ u16Bytes 1 ++ u32Bytes tfs ++ u32Bytes 30 ++
      u32Bytes sso) ++ (u16Bytes ns ++ (u16Bytes 0xffff ++ (u32Bytes 0 ++ REST))) from by
    simp [List.append_assoc]]
  exact slice_field _ _ _ _ _ (by simp) rfl

theorem slice_h26 (tfs sso ns : Nat) (REST : List Nat) :
    slice (header32 tfs sso ns ++ REST) 26 2 = u16Bytes 0xffff := by
  rw [header32_split]
  rw [show MRM_PRI2 ++ (u16Bytes 0 ++ (u16Bytes 1 ++ (u32Bytes tfs ++ (u32Bytes 30 ++
      (u32Bytes sso ++ (u16Bytes ns ++ (u16Bytes 0xffff ++ (u32Bytes 0 ++ REST)))))))) =
    (MRM_PRI2 ++ u16Bytes 0 ++ u16Bytes 1 ++ u32Bytes tfs ++ u32Bytes 30 ++
      u32Bytes sso ++ u16Bytes ns) ++ (u16Bytes 0xffff ++ (u32Bytes 0 ++ REST)) from by
    simp [List.append_assoc]]
  exact slice_field _ _ _ _ _ (by simp) rfl

theorem slice_h28 (tfs sso ns : Nat) (REST : List Nat) :
    slice (header32 tfs sso ns ++ REST) 28 4 = u32Bytes 0 := by
  rw [header32_split]
  rw [show MRM_PRI2 ++ (u16Bytes 0 ++ (u16Bytes 1 ++ (u32Bytes tfs ++ (u32Bytes 30 ++
      (u32Bytes sso ++ (u16Bytes ns ++ (u16Bytes 0xffff ++ (u32Bytes 0 ++ REST)))))))) =
    (MRM_PRI2 ++ u16Bytes 0 ++ u16Bytes 1 ++ u32Bytes tfs ++ u32Bytes 30 ++
      u32Bytes sso ++ u16Bytes ns ++ u16Bytes 0xffff) ++ (u32Bytes 0 ++ REST) from by
    simp [List.append_assoc]]
  exact slice_field _ _ _ _ _ (by simp) rfl

theorem slice_f0 (PRE : List Nat) (tfs p : Nat) (hp : p = PRE.length) :
    slice (PRE ++ footer16 tfs) p 4 = u32Bytes 0xdefffade := by
  rw [show PRE ++ footer16 tfs = PRE ++ (u32Bytes 0xdefffade ++ (u32Bytes tfs ++
      MRM_PRI2)) from by simp [footer16, List.append_assoc]]
  exact slice_field _ _ _ _ _ hp rfl

theorem slice_f4 (PRE : List Nat) (tfs p : Nat) (hp : p = PRE.length + 4) :
    slice (PRE ++ footer16 tfs) p 4 = u32Bytes tfs := by
  rw [show PRE ++ footer16 tfs = (PRE ++ u32Bytes 0xdefffade) ++ (u32Bytes tfs ++
      MRM_PRI2) from by simp [footer16, List.append_assoc]]
  exact slice_field _ _ _ _ _ (by simp [hp]) rfl

theorem slice_f8 (PRE : List Nat) (tfs p : Nat) (hp : p = PRE.length + 8) :
    slice (PRE ++ footer16 tfs) p 8 = MRM_PRI2 := by
  rw [show PRE ++ footer16 tfs = (PRE ++ u32Bytes 0xdefffade ++ u32Bytes tfs) ++
      (MRM_PRI2 ++ ([] : List Nat)) from by simp [footer16, List.append_assoc]]
  exact slice_field _ _ _ _ _ (by simp [hp]) (by simp)

theorem footer16_length (tfs : Nat) : (footer16 tfs).length = 16 := by
  simp [footer16]

theorem read_mkFile (R : Registry) (f : PriFile)
    (hwf : ∀ s ∈ f.sections, SectionWF R s) (hrt : CodecRT R)
    (hn : f.sections.length < 2 ^ 16) (hsize : totalLen R f < 2 ^ 32) :
    PriFile.read R ⟨mkFile R f, 0⟩ = some f := by
  have h16 : ∀ s ∈ f.sections, s.data.section_identifier.length = 16 :=
    fun s hs => (hwf s hs).1
  have h48 : 48 ≤ totalLen R f := by
    simp only [totalLen]
    omega
  have hL : (mkFile R f).length = totalLen R f := by
    simp only [mkFile, List.length_append, header32_length,
      mkToc_length R f.sections 2 h16, footer16_length, totalLen]
    ring
  have hM : mkFile R f = header32 (totalLen R f)
      ((f.sections.length * 32 + 30) % 2 ^ 32) (f.sections.length % 2 ^ 16) ++
      (mkToc R f.sections 2 ++ (mkBlob R f.sections ++ footer16 (totalLen R f))) := by
    simp [mkFile, List.append_assoc]
  have hM2 : mkFile R f = (header32 (totalLen R f)
      ((f.sections.length * 32 + 30) % 2 ^ 32) (f.sections.length % 2 ^ 16) ++
      (mkToc R f.sections 2 ++ mkBlob R f.sections)) ++ footer16 (totalLen R f) := by
    simp [mkFile, List.append_assoc]
  have hPRE2 : (header32 (totalLen R f)
      ((f.sections.length * 32 + 30) % 2 ^ 32) (f.sections.length % 2 ^ 16) ++
      (mkToc R f.sections 2 ++ mkBlob R f.sections)).length = totalLen R f - 16 := by
    simp only [List.length_append, header32_length, mkToc_length R f.sections 2 h16,
      totalLen]
    omega
  have rA : readBytes 8 ⟨mkFile R f, 0⟩ = some (MRM_PRI2, ⟨mkFile R f, 8⟩) := by
    rw [readBytes_eq _ _ _ (by rw [hL]; omega)]
    rw [show slice (mkFile R f) 0 8 = MRM_PRI2 from by
      rw [hM]
      exact slice_h0 _ _ _ _]
  have rMg : checkMagic MRM_PRI2 = some MRM_PRI2 := by decide
  have rH8 : readU16 ⟨mkFile R f, 8⟩ = some (0, ⟨mkFile R f, 10⟩) := by
    rw [readU16_eq _ _ (by rw [hL]; omega)]
    rw [show slice (mkFile R f) 8 2 = u16Bytes 0 from by
      rw [hM]
      exact slice_h8 _ _ _ _]
    simp
  have rH10 : readU16 ⟨mkFile R f, 10⟩ = some (1, ⟨mkFile R f, 12⟩) := by
    rw [readU16_eq _ _ (by rw [hL]; omega)]
    rw [show slice (mkFile R f) 10 2 = u16Bytes 1 from by
      rw [hM]
      exact slice_h10 _ _ _ _]
    simp
  have rH12 : readU32 ⟨mkFile R f, 12⟩ = some (totalLen R f, ⟨mkFile R f, 16⟩) := by
    rw [readU32_eq _ _ (by rw [hL]; omega)]
    rw [show slice (mkFile R f) 12 4 = u32Bytes (totalLen R f) from by
      rw [hM]
      exact slice_h12 _ _ _ _]
    simp only [leVal_u32Bytes, Nat.mod_eq_of_lt hsize]
  have rH16 : readU32 ⟨mkFile R f, 16⟩ = some (30, ⟨mkFile R f, 20⟩) := by
    rw [readU32_eq _ _ (by rw [hL]; omega)]
    rw [show slice (mkFile R f) 16 4 = u32Bytes 30 from by
      rw [hM]
      exact slice_h16 _ _ _ _]
    simp
  have rH20 : readU32 ⟨mkFile R f, 20⟩ =
      some (f.sections.length * 32 + 30, ⟨mkFile R f, 24⟩) := by
    rw [readU32_eq _ _ (by rw [hL]; omega)]
    rw [show slice (mkFile R f) 20 4 =
        u32Bytes ((f.sections.length * 32 + 30) % 2 ^ 32) from by
      rw [hM]
      exact slice_h20 _ _ _ _]
    rw [leVal_u32Bytes]
    rw [show (f.sections.length * 32 + 30) % 2 ^ 32 % 2 ^ 32 =
        f.sections.length * 32 + 30 from by omega]
  have rH24 : readU16 ⟨mkFile R f, 24⟩ =
      some (f.sections.length, ⟨mkFile R f, 26⟩) := by
    rw [readU16_eq _ _ (by rw [hL]; omega)]
    rw [show slice (mkFile R f) 24 2 = u16Bytes (f.sections.length % 2 ^ 16) from by
      rw [hM]
      exact slice_h24 _ _ _ _]
    rw [leVal_u16Bytes]
    rw [show f.sections.length % 2 ^ 16 % 2 ^ 16 = f.sections.length from by omega]
  have rH26 : readU16 ⟨mkFile R f, 26⟩ = some (0xffff, ⟨mkFile R f, 28⟩) := by
    rw [readU16_eq _ _ (by rw [hL]; omega)]
    rw [show slice (mkFile R f) 26 2 = u16Bytes 0xffff from by
      rw [hM]
      exact slice_h26 _ _ _ _]
    simp
  have rH28 : readU32 ⟨mkFile R f, 28⟩ = some (0, ⟨mkFile R f, 32⟩) := by
    rw [readU32_eq _ _ (by rw [hL]; omega)]
    rw [show slice (mkFile R f) 28 4 = u32Bytes 0 from by
      rw [hM]
      exact slice_h28 _ _ _ _]
    simp
  have hseek : u64Sub (totalLen R f) 16 = totalLen R f - 16 :=
    u64Sub_of_le _ _ (by omega)
  have rF0 : readU32 ⟨mkFile R f, totalLen R f - 16⟩ =
      some (0xdefffade, ⟨mkFile R f, totalLen R f - 16 + 4⟩) := by
    rw [readU32_eq _ _ (by rw [hL]; omega)]
    rw [show slice (mkFile R f) (totalLen R f - 16) 4 = u32Bytes 0xdefffade from by
      rw [hM2]
      exact slice_f0 _ _ _ hPRE2.symm]
    simp
  have rF4 : readU32 ⟨mkFile R f, totalLen R f - 16 + 4⟩ =
      some (totalLen R f, ⟨mkFile R f, totalLen R f - 16 + 4 + 4⟩) := by
    rw [readU32_eq _ _ (by rw [hL]; omega)]
    rw [show slice (mkFile R f) (totalLen R f - 16 + 4) 4 =
        u32Bytes (totalLen R f) from by
      rw [hM2]
      exact slice_f4 _ _ _ (by rw [hPRE2])]
    simp only [leVal_u32Bytes, Nat.mod_eq_of_lt hsize]
  have rF8 : readBytes 8 ⟨mkFile R f, totalLen R f - 16 + 4 + 4⟩ =
      some (MRM_PRI2, ⟨mkFile R f, totalLen R f - 16 + 4 + 4 + 8⟩) := by
    rw [readBytes_eq _ _ _ (by rw [hL]; omega)]
    rw [show slice (mkFile R f) (totalLen R f - 16 + 4 + 4) 8 = MRM_PRI2 from by
      rw [hM2]
      exact slice_f8 _ _ _ (by rw [hPRE2])]
  obtain ⟨es, hread, hoffs⟩ := readToc_mkToc R f.sections 2
    (header32 (totalLen R f) ((f.sections.length * 32 + 30) % 2 ^ 32)
      (f.sections.length % 2 ^ 16))
    (mkBlob R f.sections ++ footer16 (totalLen R f)) h16
    (by rw [header32_length])
  rw [show (header32 (totalLen R f) ((f.sections.length * 32 + 30) % 2 ^ 32)
      (f.sections.length % 2 ^ 16)).length - 2 = 30 from by
    rw [header32_length]] at hread
  rw [show header32 (totalLen R f) ((f.sections.length * 32 + 30) % 2 ^ 32)
      (f.sections.length % 2 ^ 16) ++ mkToc R f.sections 2 ++
      (mkBlob R f.sections ++ footer16 (totalLen R f)) = mkFile R f from by
    simp [mkFile, List.append_assoc]] at hread
  obtain ⟨rr, hsecs⟩ := readSections_mkBlob R f.sections es 2
    (f.sections.length * 32 + 30)
    (header32 (totalLen R f) ((f.sections.length * 32 + 30) % 2 ^ 32)
      (f.sections.length % 2 ^ 16) ++ mkToc R f.sections 2)
    (footer16 (totalLen R f)) (30 + 32 * f.sections.length) hwf hrt hoffs
    (by simp only [List.length_append, header32_length,
          mkToc_length R f.sections 2 h16]
        omega)
    (by simp only [totalLen] at hsize
        omega)
  rw [show header32 (totalLen R f) ((f.sections.length * 32 + 30) % 2 ^ 32)
      (f.sections.length % 2 ^ 16) ++ mkToc R f.sections 2 ++ mkBlob R f.sections ++
      footer16 (totalLen R f) = mkFile R f from by
    simp [mkFile, List.append_assoc]] at hsecs
  simp only [PriFile.read, rA, rMg, rH8, rH10, rH12, rH16, rH20, rH24, rH26, rH28,
    hseek, seekTo_eval, rF0, rF4, rF8, hread, hsecs]
  simp only [ne_eq, not_true_eq_false, if_false, if_neg]

theorem write_read_roundtrip (R : Registry) (f : PriFile)
    (hwf : ∀ s ∈ f.sections, SectionWF R s) (hrt : CodecRT R)
    (hn : f.sections.length < 2 ^ 16) (hsize : totalLen R f < 2 ^ 32) :
    PriFile.read R ⟨PriFile.writeBytes R f, 0⟩ = some f := by
  rw [PriFile.writeBytes, write_eq_mkFile R f (fun s hs => (hwf s hs).1)]
  exact read_mkFile R f hwf hrt hn hsize

/-! ## Inversion: what a successful parse guarantees -/

theorem readBytes_inv (n : Nat) (r : ByteStream) (bs : List Nat) (r' : ByteStream)
    (h : readBytes n r = some (bs, r')) :
    bs = slice r.data r.pos n ∧ r'.data = r.data ∧ r'.pos = r.pos + n ∧
      bs.length = n ∧ r.pos + n ≤ r.data.length := by
  simp only [readBytes] at h
  split at h
  · simp only [Option.some.injEq, Prod.mk.injEq] at h
    obtain ⟨h1, h2⟩ := h
    subst h2
    refine ⟨h1.symm, rfl, rfl, ?_, by omega⟩
    rw [← h1]
    simp only [slice, List.length_take, List.length_drop]
    omega
  · exact absurd h (by simp)

theorem slice_bytes_lt (d : List Nat) (p n : Nat) (hb : ∀ b ∈ d, b < 256) :
    ∀ b ∈ slice d p n, b < 256 := by
  intro b hbm
  exact hb b (List.drop_subset p d (List.take_subset n _ hbm))

theorem readU16_inv (r : ByteStream) (v : Nat) (r' : ByteStream)
    (h : readU16 r = some (v, r')) (hb : ∀ b ∈ r.data, b < 256) :
    v < 2 ^ 16 ∧ r'.data = r.data ∧ r'.pos = r.pos + 2 := by
  simp only [readU16, Option.map_eq_some'] at h
  obtain ⟨⟨bs, r''⟩, hread, heq⟩ := h
  simp only [Prod.mk.injEq] at heq
  obtain ⟨hv, hr⟩ := heq
  subst hv hr
  obtain ⟨hbs, hd, hp, hlen, _⟩ := readBytes_inv _ _ _ _ hread
  refine ⟨?_, hd, hp⟩
  have := leVal_lt bs (by rw [hbs]; exact slice_bytes_lt _ _ _ hb)
  rw [hlen] at this
  omega

theorem readU32_inv (r : ByteStream) (v : Nat) (r' : ByteStream)
    (h : readU32 r = some (v, r')) (hb : ∀ b ∈ r.data, b < 256) :
    v < 2 ^ 32 ∧ r'.data = r.data ∧ r'.pos = r.pos + 4 := by
  simp only [readU32, Option.map_eq_some'] at h
  obtain ⟨⟨bs, r''⟩, hread, heq⟩ := h
  simp only [Prod.mk.injEq] at heq
  obtain ⟨hv, hr⟩ := heq
  subst hv hr
  obtain ⟨hbs, hd, hp, hlen, _⟩ := readBytes_inv _ _ _ _ hread
  refine ⟨?_, hd, hp⟩
  have := leVal_lt bs (by rw [hbs]; exact slice_bytes_lt _ _ _ hb)
  rw [hlen] at this
  omega

theorem SectionData_read_inv (R : Registry) (id : List Nat) (len : Nat)
    (r : ByteStream) (d' : SectionData) (r' : ByteStream)
    (h : SectionData.read R id len r = some (d', r')) :
    d'.section_identifier = id ∧ r'.data = r.data ∧
      (match d' with
       | .known i _ => (findCodec R i).isSome
       | .unknown i _ => findCodec R i = none) := by
  simp only [SectionData.read] at h
  split at h
  · rename_i c hc
    simp only [Option.map_eq_some'] at h
    obtain ⟨vp, _, heq⟩ := h
    simp only [Prod.mk.injEq] at heq
    obtain ⟨hd', hr⟩ := heq
    subst hd' hr
    exact ⟨rfl, rfl, by simp [SectionData.section_identifier, hc]⟩
  · rename_i hc
    simp only [Option.some.injEq, Prod.mk.injEq] at h
    obtain ⟨hd', hr⟩ := h
    subst hd' hr
    exact ⟨rfl, rfl, by simp [SectionData.section_identifier, hc]⟩

theorem Section_read_inv (R : Registry) (r : ByteStream) (s : Section)
    (r' : ByteStream) (h : Section.read R r = some (s, r'))
    (hb : ∀ b ∈ r.data, b < 256) : SectionWF R s ∧ r'.data = r.data := by
  simp only [Section.read] at h
  split at h
  · exact absurd h (by simp)
  rename_i p1 id r1 h1
  split at h
  · exact absurd h (by simp)
  rename_i p2 qual r2 h2
  split at h
  · exact absurd h (by simp)
  rename_i p3 flags r3 h3
  split at h
  · exact absurd h (by simp)
  rename_i p4 sflags r4 h4
  split at h
  · exact absurd h (by simp)
  rename_i p5 slen r5 h5
  split at h
  · exact absurd h (by simp)
  rename_i p6 z r6 h6
  split at h
  · exact absurd h (by simp)
  split at h
  · exact absurd h (by simp)
  rename_i p7 dat r7 h7
  split at h
  · exact absurd h (by simp)
  rename_i p8 m r8 h8
  split at h
  · exact absurd h (by simp)
  split at h
  · exact absurd h (by simp)
  rename_i p9 l2 r9 h9
  split at h
  · exact absurd h (by simp)
  simp only [Option.some.injEq, Prod.mk.injEq] at h
  obtain ⟨hs, hr⟩ := h
  subst hs hr
  obtain ⟨hid, hd1, _, hlen1, _⟩ := readBytes_inv _ _ _ _ h1
  have hb1 : ∀ b ∈ r1.data, b < 256 := by rw [hd1]; exact hb
  obtain ⟨hqual, hd2, _⟩ := readU32_inv _ _ _ h2 hb1
  have hb2 : ∀ b ∈ r2.data, b < 256 := by rw [hd2]; exact hb1
  obtain ⟨hflags, hd3, _⟩ := readU16_inv _ _ _ h3 hb2
  have hb3 : ∀ b ∈ r3.data, b < 256 := by rw [hd3]; exact hb2
  obtain ⟨hsflags, hd4, _⟩ := readU16_inv _ _ _ h4 hb3
  have hb4 : ∀ b ∈ r4.data, b < 256 := by rw [hd4]; exact hb3
  obtain ⟨_, hd5, _⟩ := readU32_inv _ _ _ h5 hb4
  have hb5 : ∀ b ∈ r5.data, b < 256 := by rw [hd5]; exact hb4
  obtain ⟨_, hd6, _⟩ := readU32_inv _ _ _ h6 hb5
  obtain ⟨hident, hd7, hdisp⟩ := SectionData_read_inv _ _ _ _ _ _ h7
  obtain ⟨_, hd8, _⟩ := readU32_inv _ _ _ h8 (by
    simp only [seekTo] at h8 ⊢
    rw [hd7, hd6]
    exact hb5)
  obtain ⟨_, hd9, _⟩ := readU32_inv _ _ _ h9 (by
    rw [hd8]
    simp only [seekTo]
    rw [hd7, hd6]
    exact hb5)
  have hlen16 : dat.section_identifier.length = 16 := by rw [hident]; exact hlen1
  constructor
  · cases dat with
    | known i v => exact ⟨hlen16, hqual, hflags, hsflags, hdisp⟩
    | unknown i bs => exact ⟨hlen16, hqual, hflags, hsflags, hdisp⟩
  · rw [hd9, hd8]
    simp only [seekTo]
    rw [hd7, hd6, hd5, hd4, hd3, hd2, hd1]

theorem readU16_data (r : ByteStream) (v : Nat) (r' : ByteStream)
    (h : readU16 r = some (v, r')) : r'.data = r.data := by
  simp only [readU16, Option.map_eq_some'] at h
  obtain ⟨⟨bs, r''⟩, hread, heq⟩ := h
  simp only [Prod.mk.injEq] at heq
  obtain ⟨hv, hr⟩ := heq
  subst hr
  exact (readBytes_inv _ _ _ _ hread).2.1

theorem readU32_data (r : ByteStream) (v : Nat) (r' : ByteStream)
    (h : readU32 r = some (v, r')) : r'.data = r.data := by
  simp only [readU32, Option.map_eq_some'] at h
  obtain ⟨⟨bs, r''⟩, hread, heq⟩ := h
  simp only [Prod.mk.injEq] at heq
  obtain ⟨hv, hr⟩ := heq
  subst hr
  exact (readBytes_inv _ _ _ _ hread).2.1

theorem TocEntry_read_data (r : ByteStream) (e : TocEntry) (r' : ByteStream)
    (h : TocEntry.read r = some (e, r')) : r'.data = r.data := by
  simp only [TocEntry.read] at h
  split at h
  · exact absurd h (by simp)
  rename_i p1 id r1 h1
  split at h
  · exact absurd h (by simp)
  rename_i p2 flags r2 h2
  split at h
  · exact absurd h (by simp)
  rename_i p3 sflags r3 h3
  split at h
  · exact absurd h (by simp)
  rename_i p4 qual r4 h4
  split at h
  · exact absurd h (by simp)
  rename_i p5 off r5 h5
  split at h
  · exact absurd h (by simp)
  rename_i p6 len r6 h6
  simp only [Option.some.injEq, Prod.mk.injEq] at h
  obtain ⟨he, hr⟩ := h
  subst hr
  rw [readU32_data _ _ _ h6, readU32_data _ _ _ h5, readU32_data _ _ _ h4,
    readU16_data _ _ _ h3, readU16_data _ _ _ h2, (readBytes_inv _ _ _ _ h1).2.1]

theorem readToc_inv (n : Nat) (r : ByteStream) (es : List TocEntry)
    (r' : ByteStream) (h : readToc n r = some (es, r')) :
    es.length = n ∧ r'.data = r.data := by
  induction n generalizing r es r' with
  | zero =>
    simp only [readToc, Option.some.injEq, Prod.mk.injEq] at h
    obtain ⟨he, hr⟩ := h
    subst he hr
    exact ⟨rfl, rfl⟩
  | succ n ih =>
    simp only [readToc] at h
    split at h
    · exact absurd h (by simp)
    rename_i p1 e r1 h1
    split at h
    · exact absurd h (by simp)
    rename_i p2 es1 r2 h2
    simp only [Option.some.injEq, Prod.mk.injEq] at h
    obtain ⟨hes, hr⟩ := h
    subst hes hr
    obtain ⟨hl, hd⟩ := ih _ _ _ h2
    exact ⟨by simp [hl], by rw [hd, TocEntry_read_data _ _ _ h1]⟩

theorem readSections_inv (R : Registry) (sso : Nat) (es : List TocEntry)
    (r : ByteStream) (ss : List Section) (r' : ByteStream)
    (h : readSections R sso es r = some (ss, r')) (hb : ∀ b ∈ r.data, b < 256) :
    (∀ s ∈ ss, SectionWF R s) ∧ ss.length = es.length ∧ r'.data = r.data := by
  induction es generalizing r ss r' with
  | nil =>
    simp only [readSections, Option.some.injEq, Prod.mk.injEq] at h
    obtain ⟨hss, hr⟩ := h
    subst hss hr
    exact ⟨by simp, rfl, rfl⟩
  | cons e es ih =>
    simp only [readSections] at h
    split at h
    · exact absurd h (by simp)
    rename_i p1 s r1 h1
    split at h
    · exact absurd h (by simp)
    rename_i p2 ss1 r2 h2
    simp only [Option.some.injEq, Prod.mk.injEq] at h
    obtain ⟨hss, hr⟩ := h
    subst hss hr
    obtain ⟨hwf1, hd1⟩ := Section_read_inv R _ _ _ h1 (by
      simp only [seekTo]
      exact hb)
    have hb1 : ∀ b ∈ r1.data, b < 256 := by
      rw [hd1]
      simp only [seekTo]
      exact hb
    obtain ⟨hwf, hl, hd⟩ := ih _ _ _ h2 hb1
    refine ⟨?_, by simp [hl], by rw [hd, hd1]; simp [seekTo]⟩
    intro x hx
    rcases List.mem_cons.mp hx with hx | hx
    · rw [hx]
      exact hwf1
    · exact hwf x hx

theorem PriFile_read_inv (R : Registry) (r : ByteStream) (f : PriFile)
    (h : PriFile.read R r = some f) (hb : ∀ b ∈ r.data, b < 256) :
    (∀ s ∈ f.sections, SectionWF R s) ∧ f.sections.length < 2 ^ 16 := by
  simp only [PriFile.read] at h
  split at h
  · exact absurd h (by simp)
  rename_i p1 magic r1 h1
  split at h
  · exact absurd h (by simp)
  rename_i version h2
  split at h
  · exact absurd h (by simp)
  rename_i p2 a r2 h3
  split at h
  · exact absurd h (by simp)
  split at h
  · exact absurd h (by simp)
  rename_i p3 b r3 h4
  split at h
  · exact absurd h (by simp)
  split at h
  · exact absurd h (by simp)
  rename_i p4 tfs r4 h5
  split at h
  · exact absurd h (by simp)
  rename_i p5 toc r5 h6
  split at h
  · exact absurd h (by simp)
  rename_i p6 sso r6 h7
  split at h
  · exact absurd h (by simp)
  rename_i p7 ns r7 h8
  split at h
  · exact absurd h (by simp)
  rename_i p8 c r8 h9
  split at h
  · exact absurd h (by simp)
  split at h
  · exact absurd h (by simp)
  rename_i p9 d r9 h10
  split at h
  · exact absurd h (by simp)
  split at h
  · exact absurd h (by simp)
  rename_i p10 m r10 h11
  split at h
  · exact absurd h (by simp)
  split at h
  · exact absurd h (by simp)
  rename_i p11 t2 r11 h12
  split at h
  · exact absurd h (by simp)
  split at h
  · exact absurd h (by simp)
  rename_i p12 magic2 r12 h13
  split at h
  · exact absurd h (by simp)
  split at h
  · exact absurd h (by simp)
  rename_i p13 entries r13 h14
  split at h
  · exact absurd h (by simp)
  rename_i p14 sections r14 h15
  simp only [Option.some.injEq] at h
  subst h
  have hd1 := (readBytes_inv _ _ _ _ h1).2.1
  have hd2 := readU16_data _ _ _ h3
  have hd3 := readU16_data _ _ _ h4
  have hd4 := readU32_data _ _ _ h5
  have hd5 := readU32_data _ _ _ h6
  have hd6 := readU32_data _ _ _ h7
  have hd7 := readU16_data _ _ _ h8
  have hbr6 : ∀ x ∈ r6.data, x < 256 := by
    rw [hd6, hd5, hd4, hd3, hd2, hd1]
    exact hb
  obtain ⟨hns, hdr7, _⟩ := readU16_inv _ _ _ h8 hbr6
  have hd8 := readU16_data _ _ _ h9
  have hd9 := readU32_data _ _ _ h10
  have hd10 := readU32_data _ _ _ h11
  have hd11 := readU32_data _ _ _ h12
  have hd12 := (readBytes_inv _ _ _ _ h13).2.1
  obtain ⟨hlen_es, hd13⟩ := readToc_inv _ _ _ _ h14
  have hbr13 : ∀ x ∈ r13.data, x < 256 := by
    rw [hd13]
    simp only [seekTo]
    rw [hd12, hd11]
    simp only [seekTo] at hd10
    rw [hd10, hd9, hd8, hdr7]
    exact hbr6
  obtain ⟨hwf, hlen_ss, _⟩ := readSections_inv R _ _ _ _ _ h15 hbr13
  exact ⟨hwf, by rw [hlen_ss, hlen_es]; exact hns⟩

theorem readU16_getU16 (r : ByteStream) (v : Nat) (r' : ByteStream)
    (h : readU16 r = some (v, r')) :
    getU16 r.data r.pos = some v ∧ r'.data = r.data ∧ r'.pos = r.pos + 2 := by
  simp only [readU16, Option.map_eq_some'] at h
  obtain ⟨⟨bs, r''⟩, hread, heq⟩ := h
  simp only [Prod.mk.injEq] at heq
  obtain ⟨hv, hr⟩ := heq
  subst hr
  obtain ⟨hbs, hd, hp, _, hle⟩ := readBytes_inv _ _ _ _ hread
  refine ⟨?_, hd, hp⟩
  rw [getU16, if_pos hle, ← hbs, hv]

theorem readU32_getU32 (r : ByteStream) (v : Nat) (r' : ByteStream)
    (h : readU32 r = some (v, r')) :
    getU32 r.data r.pos = some v ∧ r'.data = r.data ∧ r'.pos = r.pos + 4 := by
  simp only [readU32, Option.map_eq_some'] at h
  obtain ⟨⟨bs, r''⟩, hread, heq⟩ := h
  simp only [Prod.mk.injEq] at heq
  obtain ⟨hv, hr⟩ := heq
  subst hr
  obtain ⟨hbs, hd, hp, _, hle⟩ := readBytes_inv _ _ _ _ hread
  refine ⟨?_, hd, hp⟩
  rw [getU32, if_pos hle, ← hbs, hv]

theorem Section_read_fields (R : Registry) (r : ByteStream) (s : Section)
    (r' : ByteStream) (h : Section.read R r = some (s, r')) :
    ∃ slen, getU32 r.data (r.pos + 24) = some slen ∧
      getU32 r.data (r.pos + 28) = some 0 ∧
      getU32 r.data (u64Sub (r.pos + slen) 8) = some 0xdef5fade ∧
      getU32 r.data (u64Sub (r.pos + slen) 8 + 4) = some slen ∧
      r'.data = r.data ∧ r'.pos = u64Sub (r.pos + slen) 8 + 8 := by
  simp only [Section.read] at h
  split at h
  · exact absurd h (by simp)
  rename_i p1 id r1 h1
  split at h
  · exact absurd h (by simp)
  rename_i p2 qual r2 h2
  split at h
  · exact absurd h (by simp)
  rename_i p3 flags r3 h3
  split at h
  · exact absurd h (by simp)
  rename_i p4 sflags r4 h4
  split at h
  · exact absurd h (by simp)
  rename_i p5 slen r5 h5
  split at h
  · exact absurd h (by simp)
  rename_i p6 z r6 h6
  split at h
  · exact absurd h (by simp)
  rename_i hz
  split at h
  · exact absurd h (by simp)
  rename_i p7 dat r7 h7
  split at h
  · exact absurd h (by simp)
  rename_i p8 m r8 h8
  split at h
  · exact absurd h (by simp)
  rename_i hm
  split at h
  · exact absurd h (by simp)
  rename_i p9 l2 r9 h9
  split at h
  · exact absurd h (by simp)
  rename_i hl2
  simp only [Option.some.injEq, Prod.mk.injEq] at h
  obtain ⟨hs, hr⟩ := h
  subst hr
  obtain ⟨_, hd1, hp1, _, _⟩ := readBytes_inv _ _ _ _ h1
  obtain ⟨_, hd2, hp2⟩ := readU32_getU32 _ _ _ h2
  obtain ⟨_, hd3, hp3⟩ := readU16_getU16 _ _ _ h3
  obtain ⟨_, hd4, hp4⟩ := readU16_getU16 _ _ _ h4
  obtain ⟨g5, hd5, hp5⟩ := readU32_getU32 _ _ _ h5
  obtain ⟨g6, hd6, hp6⟩ := readU32_getU32 _ _ _ h6
  obtain ⟨_, hd7, _⟩ := SectionData_read_inv _ _ _ _ _ _ h7
  obtain ⟨g8, hd8, hp8⟩ := readU32_getU32 _ _ _ h8
  obtain ⟨g9, hd9, hp9⟩ := readU32_getU32 _ _ _ h9
  simp only [seekTo] at g8 hd8 hp8
  push_neg at hz hm hl2
  subst hz hm
  rw [hl2] at g9
  have e4 : r4.data = r.data := by rw [hd4, hd3, hd2, hd1]
  have e5 : r5.data = r.data := by rw [hd5, e4]
  have e7 : r7.data = r.data := by rw [hd7, hd6, e5]
  refine ⟨slen, ?_, ?_, ?_, ?_, ?_, ?_⟩
  · rw [show r.pos + 24 = r4.pos from by omega, ← e4]
    exact g5
  · rw [show r.pos + 28 = r5.pos from by omega, ← e5]
    exact g6
  · rw [← e7]
    exact g8
  · rw [show u64Sub (r.pos + slen) 8 + 4 = r8.pos from by omega,
      show r.data = r8.data from by rw [hd8, e7]]
    exact g9
  · rw [hd9, hd8, e7]
  · omega

theorem PriFile_read_fields (R : Registry) (r : ByteStream) (f : PriFile)
    (h : PriFile.read R r = some f) :
    ∃ tfs, getU16 r.data (r.pos + 8) = some 0 ∧
      getU16 r.data (r.pos + 10) = some 1 ∧
      getU32 r.data (r.pos + 12) = some tfs ∧
      getU16 r.data (r.pos + 26) = some 0xffff ∧
      getU32 r.data (r.pos + 28) = some 0 ∧
      getU32 r.data (u64Sub tfs 16) = some 0xdefffade ∧
      getU32 r.data (u64Sub tfs 16 + 4) = some tfs := by
  simp only [PriFile.read] at h
  split at h
  · exact absurd h (by simp)
  rename_i p1 magic r1 h1
  split at h
  · exact absurd h (by simp)
  rename_i version h2
  split at h
  · exact absurd h (by simp)
  rename_i p2 a r2 h3
  split at h
  · exact absurd h (by simp)
  rename_i ha
  split at h
  · exact absurd h (by simp)
  rename_i p3 b r3 h4
  split at h
  · exact absurd h (by simp)
  rename_i hb
  split at h
  · exact absurd h (by simp)
  rename_i p4 tfs r4 h5
  split at h
  · exact absurd h (by simp)
  rename_i p5 toc r5 h6
  split at h
  · exact absurd h (by simp)
  rename_i p6 sso r6 h7
  split at h
  · exact absurd h (by simp)
  rename_i p7 ns r7 h8
  split at h
  · exact absurd h (by simp)
  rename_i p8 c r8 h9
  split at h
  · exact absurd h (by simp)
  rename_i hc
  split at h
  · exact absurd h (by simp)
  rename_i p9 d r9 h10
  split at h
  · exact absurd h (by simp)
  rename_i hd0
  split at h
  · exact absurd h (by simp)
  rename_i p10 m r10 h11
  split at h
  · exact absurd h (by simp)
  rename_i hmk
  split at h
  · exact absurd h (by simp)
  rename_i p11 t2 r11 h12
  split at h
  · exact absurd h (by simp)
  rename_i ht2
  split at h
  · exact absurd h (by simp)
  rename_i p12 magic2 r12 h13
  split at h
  · exact absurd h (by simp)
  split at h
  · exact absurd h (by simp)
  rename_i p13 entries r13 h14
  split at h
  · exact absurd h (by simp)
  rename_i p14 sections r14 h15
  obtain ⟨_, hd1, hp1, _, _⟩ := readBytes_inv _ _ _ _ h1
  obtain ⟨g3, hd2, hp2⟩ := readU16_getU16 _ _ _ h3
  obtain ⟨g4, hd3, hp3⟩ := readU16_getU16 _ _ _ h4
  obtain ⟨g5, hd4, hp4⟩ := readU32_getU32 _ _ _ h5
  obtain ⟨g6, hd5, hp5⟩ := readU32_getU32 _ _ _ h6
  obtain ⟨g7, hd6, hp6⟩ := readU32_getU32 _ _ _ h7
  obtain ⟨g8, hd7, hp7⟩ := readU16_getU16 _ _ _ h8
  obtain ⟨g9, hd8, hp8⟩ := readU16_getU16 _ _ _ h9
  obtain ⟨g10, hd9, hp9⟩ := readU32_getU32 _ _ _ h10
  obtain ⟨g11, hd10, hp10⟩ := readU32_getU32 _ _ _ h11
  obtain ⟨g12, hd11, hp11⟩ := readU32_getU32 _ _ _ h12
  simp only [seekTo] at g11 hd10 hp10
  push_neg at ha hb hc hd0 hmk ht2
  subst ha hb hc hd0 hmk
  rw [ht2] at g12
  have e2 : r2.data = r.data := by rw [hd2, hd1]
  have e3 : r3.data = r.data := by rw [hd3, e2]
  have e7 : r7.data = r.data := by rw [hd7, hd6, hd5, hd4, e3]
  have e8 : r8.data = r.data := by rw [hd8, e7]
  have e9 : r9.data = r.data := by rw [hd9, e8]
  refine ⟨tfs, ?_, ?_, ?_, ?_, ?_, ?_, ?_⟩
  · rw [show r.pos + 8 = r1.pos from by omega, ← hd1]
    exact g3
  · rw [show r.pos + 10 = r2.pos from by omega, ← e2]
    exact g4
  · rw [show r.pos + 12 = r3.pos from by omega, ← e3]
    exact g5
  · rw [show r.pos + 26 = r7.pos from by omega, ← e7]
    exact g9
  · rw [show r.pos + 28 = r8.pos from by omega, ← e8]
    exact g10
  · rw [← e9]
    exact g11
  · rw [show u64Sub tfs 16 + 4 = r10.pos from by omega,
      show r.data = r10.data from by rw [hd10, e9]]
    exact g12

theorem slice_take (d : List Nat) (m p n : Nat) (h : p + n ≤ m) :
    slice (d.take m) p n = slice d p n := by
  simp only [slice]
  rw [List.drop_take, List.take_take]
  congr 1
  omega

theorem getU32_take (d : List Nat) (m p : Nat) (h : p + 4 ≤ m) :
    getU32 (d.take m) p = getU32 d p := by
  simp only [getU32, List.length_take]
  by_cases hc : p + 4 ≤ d.length
  · rw [if_pos (by omega), if_pos hc, slice_take _ _ _ _ h]
  · rw [if_neg (by omega), if_neg hc]

/-! ## The oversized input: parsing `atkStream` -/

theorem flatten_replicate_length (n : Nat) (xs : List Nat) :
    ((List.replicate n xs).flatten).length = n * xs.length := by
  induction n with
  | zero => simp
  | succ n ih => simp [List.replicate_succ, ih, Nat.succ_mul]; omega

theorem atkEntry_split : atkEntry = testid ++ (u16Bytes 0 ++ (u16Bytes 0 ++
    (u32Bytes 0 ++ (u32Bytes 0 ++ u32Bytes 0)))) := by decide

theorem atkEntry_length : atkEntry.length = 32 := by decide

theorem testid_length : testid.length = 16 := by decide

theorem TocEntry_read_atk (A B : List Nat) :
    TocEntry.read ⟨A ++ atkEntry ++ B, A.length⟩ =
      some (atkToc, ⟨A ++ atkEntry ++ B, A.length + 32⟩) := by
  have hsh : A ++ atkEntry ++ B = A ++ (testid ++ (u16Bytes 0 ++ (u16Bytes 0 ++
      (u32Bytes 0 ++ (u32Bytes 0 ++ (u32Bytes 0 ++ B)))))) := by
    rw [atkEntry_split]
    simp [List.append_assoc]
  have hlen : (A ++ atkEntry ++ B).length = A.length + 32 + B.length := by
    simp [atkEntry_length]
    omega
  have r1 : readBytes 16 ⟨A ++ atkEntry ++ B, A.length⟩ =
      some (testid, ⟨A ++ atkEntry ++ B, A.length + 16⟩) := by
    rw [readBytes_eq _ _ _ (by omega)]
    rw [show slice (A ++ atkEntry ++ B) A.length 16 = testid from by
      rw [hsh]
      exact slice_field _ _ _ _ _ rfl testid_length.symm]
  have r2 : readU16 ⟨A ++ atkEntry ++ B, A.length + 16⟩ =
      some (0, ⟨A ++ atkEntry ++ B, A.length + 16 + 2⟩) := by
    rw [readU16_eq _ _ (by omega)]
    rw [show slice (A ++ atkEntry ++ B) (A.length + 16) 2 = u16Bytes 0 from by
      rw [hsh, show A ++ (testid ++ (u16Bytes 0 ++ (u16Bytes 0 ++
          (u32Bytes 0 ++ (u32Bytes 0 ++ (u32Bytes 0 ++ B)))))) =
        (A ++ testid) ++ (u16Bytes 0 ++ (u16Bytes 0 ++
          (u32Bytes 0 ++ (u32Bytes 0 ++ (u32Bytes 0 ++ B))))) from by
        simp [List.append_assoc]]
      exact slice_field _ _ _ _ _ (by simp [testid_length]) rfl]
    simp
  have r3 : readU16 ⟨A ++ atkEntry ++ B, A.length + 16 + 2⟩ =
      some (0, ⟨A ++ atkEntry ++ B, A.length + 16 + 2 + 2⟩) := by
    rw [readU16_eq _ _ (by omega)]
    rw [show slice (A ++ atkEntry ++ B) (A.length + 16 + 2) 2 = u16Bytes 0 from by
      rw [hsh, show A ++ (testid ++ (u16Bytes 0 ++ (u16Bytes 0 ++
          (u32Bytes 0 ++ (u32Bytes 0 ++ (u32Bytes 0 ++ B)))))) =
        (A ++ testid ++ u16Bytes 0) ++ (u16Bytes 0 ++
          (u32Bytes 0 ++ (u32Bytes 0 ++ (u32Bytes 0 ++ B)))) from by
        simp [List.append_assoc]]
      exact slice_field _ _ _ _ _ (by simp [testid_length]) rfl]
    simp
  have r4 : readU32 ⟨A ++ atkEntry ++ B, A.length + 16 + 2 + 2⟩ =
      some (0, ⟨A ++ atkEntry ++ B, A.length + 16 + 2 + 2 + 4⟩) := by
    rw [readU32_eq _ _ (by omega)]
    rw [show slice (A ++ atkEntry ++ B) (A.length + 16 + 2 + 2) 4 = u32Bytes 0 from by
      rw [hsh, show A ++ (testid ++ (u16Bytes 0 ++ (u16Bytes 0 ++
          (u32Bytes 0 ++ (u32Bytes 0 ++ (u32Bytes 0 ++ B)))))) =
        (A ++ testid ++ u16Bytes 0 ++ u16Bytes 0) ++
          (u32Bytes 0 ++ (u32Bytes 0 ++ (u32Bytes 0 ++ B))) from by
        simp [List.append_assoc]]
      exact slice_field _ _ _ _ _ (by simp [testid_length]) rfl]
    simp
  have r5 : readU32 ⟨A ++ atkEntry ++ B, A.length + 16 + 2 + 2 + 4⟩ =
      some (0, ⟨A ++ atkEntry ++ B, A.length + 16 + 2 + 2 + 4 + 4⟩) := by
    rw [readU32_eq _ _ (by omega)]
    rw [show slice (A ++ atkEntry ++ B) (A.length + 16 + 2 + 2 + 4) 4 =
        u32Bytes 0 from by
      rw [hsh, show A ++ (testid ++ (u16Bytes 0 ++ (u16Bytes 0 ++
          (u32Bytes 0 ++ (u32Bytes 0 ++ (u32Bytes 0 ++ B)))))) =
        (A ++ testid ++ u16Bytes 0 ++ u16Bytes 0 ++ u32Bytes 0) ++
          (u32Bytes 0 ++ (u32Bytes 0 ++ B)) from by
        simp [List.append_assoc]]
      exact slice_field _ _ _ _ _ (by simp [testid_length]) rfl]
    simp
  have r6 : readU32 ⟨A ++ atkEntry ++ B, A.length + 16 + 2 + 2 + 4 + 4⟩ =
      some (0, ⟨A ++ atkEntry ++ B, A.length + 16 + 2 + 2 + 4 + 4 + 4⟩) := by
    rw [readU32_eq _ _ (by omega)]
    rw [show slice (A ++ atkEntry ++ B) (A.length + 16 + 2 + 2 + 4 + 4) 4 =
        u32Bytes 0 from by
      rw [hsh, show A ++ (testid ++ (u16Bytes 0 ++ (u16Bytes 0 ++
          (u32Bytes 0 ++ (u32Bytes 0 ++ (u32Bytes 0 ++ B)))))) =
        (A ++ testid ++ u16Bytes 0 ++ u16Bytes 0 ++ u32Bytes 0 ++ u32Bytes 0) ++
          (u32Bytes 0 ++ B) from by
        simp [List.append_assoc]]
      exact slice_field _ _ _ _ _ (by simp [testid_length]) rfl]
    simp
  simp only [TocEntry.read, r1, r2, r3, r4, r5, r6]
  rw [show A.length + 16 + 2 + 2 + 4 + 4 + 4 = A.length + 32 from by omega]
  rfl

theorem readToc_atk (k : Nat) : ∀ (A B : List Nat),
    readToc k ⟨A ++ (List.replicate k atkEntry).flatten ++ B, A.length⟩ =
      some (List.replicate k atkToc,
        ⟨A ++ (List.replicate k atkEntry).flatten ++ B, A.length + 32 * k⟩) := by
  induction k with
  | zero => intro A B; simp [readToc]
  | succ k ih =>
    intro A B
    have hfl : (List.replicate (k + 1) atkEntry).flatten =
        atkEntry ++ (List.replicate k atkEntry).flatten := by
      simp [List.replicate_succ]
    have hsh : A ++ (List.replicate (k + 1) atkEntry).flatten ++ B =
        A ++ atkEntry ++ ((List.replicate k atkEntry).flatten ++ B) := by
      rw [hfl]
      simp [List.append_assoc]
    have hsh2 : A ++ (List.replicate (k + 1) atkEntry).flatten ++ B =
        (A ++ atkEntry) ++ (List.replicate k atkEntry).flatten ++ B := by
      rw [hfl]
      simp [List.append_assoc]
    have r1 : TocEntry.read ⟨A ++ (List.replicate (k + 1) atkEntry).flatten ++ B,
        A.length⟩ = some (atkToc,
          ⟨A ++ (List.replicate (k + 1) atkEntry).flatten ++ B, A.length + 32⟩) := by
      rw [hsh]
      exact TocEntry_read_atk A _
    have r2 : readToc k ⟨A ++ (List.replicate (k + 1) atkEntry).flatten ++ B,
        A.length + 32⟩ = some (List.replicate k atkToc,
          ⟨A ++ (List.replicate (k + 1) atkEntry).flatten ++ B,
            A.length + 32 + 32 * k⟩) := by
      rw [hsh2, show A.length + 32 = (A ++ atkEntry).length from by
        simp [atkEntry_length]]
      exact ih (A ++ atkEntry) B
    simp only [readToc, r1, r2]
    rw [show A.length + 32 + 32 * k = A.length + 32 * (k + 1) from by ring]
    simp [List.replicate_succ]

theorem atk_encLen : encLen emptyR atkParsedSection = 65466 := by
  show (SectionData.writeBytes emptyR atkParsedSection.data).length = 65466
  rw [show atkParsedSection.data =
    SectionData.unknown testid (List.replicate 65466 0) from rfl]
  rw [show SectionData.writeBytes emptyR
      (SectionData.unknown testid (List.replicate 65466 0)) =
    List.replicate 65466 0 from rfl]
  rw [List.length_replicate]

theorem blockLen_def (R : Registry) (s : Section) :
    blockLen R s = encLen R s + 40 := rfl

theorem secLenVal_def (R : Registry) (s : Section) :
    secLenVal R s = (encLen R s % 2 ^ 32 + 40) % 2 ^ 32 := rfl

theorem atk_blockLen : blockLen emptyR atkParsedSection = 65506 := by
  rw [blockLen_def, atk_encLen]

theorem atk_secLenVal : secLenVal emptyR atkParsedSection = 65506 := by
  rw [secLenVal_def, atk_encLen]
  norm_num

theorem atkSection_eq : atkSection = secBytes emptyR atkParsedSection := by
  rw [secBytes, atk_secLenVal]
  rw [show atkParsedSection.data.section_identifier = testid from rfl]
  rw [show SectionData.writeBytes emptyR atkParsedSection.data =
    List.replicate 65466 0 from rfl]
  rw [show atkParsedSection.section_qualifier = 0 from rfl]
  rw [show atkParsedSection.flags = 0 from rfl]
  rw [show atkParsedSection.section_flags = 0 from rfl]
  rfl

theorem atk_wf : SectionWF emptyR atkParsedSection := by
  refine ⟨by decide, by decide, by decide, by decide, ?_⟩
  rw [show atkParsedSection.data =
    SectionData.unknown testid (List.replicate 65466 0) from rfl]
  exact rfl

theorem emptyR_rt : CodecRT emptyR := by
  intro c hc
  exact absurd hc (by simp [emptyR])

theorem atk_pre_length :
    (atkHeader ++ (List.replicate 65535 atkEntry).flatten).length = 2097152 := by
  simp only [List.length_append, flatten_replicate_length, atkEntry_length,
    show atkHeader.length = 32 from by decide]

theorem Section_read_atk :
    Section.read emptyR ⟨atkStream, 2097152⟩ =
      some (atkParsedSection, ⟨atkStream, 2162658⟩) := by
  have hsh : atkStream = (atkHeader ++ (List.replicate 65535 atkEntry).flatten) ++
      secBytes emptyR atkParsedSection ++ atkFooter := by
    rw [← atkSection_eq]
    simp only [atkStream, List.append_assoc]
  have h := Section_read_secBytes emptyR atkParsedSection
    (atkHeader ++ (List.replicate 65535 atkEntry).flatten) atkFooter
    atk_wf emptyR_rt (by rw [atk_blockLen]; norm_num)
  rw [atk_pre_length, atk_blockLen,
    show (2097152 : Nat) + 65506 = 2162658 from by norm_num] at h
  rw [hsh]
  exact h

theorem readSections_replicate (R : Registry) (sso : Nat) (e : TocEntry)
    (s : Section) (d : List Nat) (p2 : Nat)
    (hsec : Section.read R ⟨d, sso + e.section_offset⟩ = some (s, ⟨d, p2⟩)) :
    ∀ (n : Nat) (p : Nat), ∃ q,
      readSections R sso (List.replicate n e) ⟨d, p⟩ =
        some (List.replicate n s, ⟨d, q⟩) := by
  intro n
  induction n with
  | zero => intro p; exact ⟨p, rfl⟩
  | succ n ih =>
    intro p
    obtain ⟨q, hq⟩ := ih p2
    refine ⟨q, ?_⟩
    simp only [List.replicate_succ, readSections, seekTo, hsec, hq]

theorem readSections_atk (n : Nat) : ∀ (p : Nat), ∃ q,
    readSections emptyR 2097152 (List.replicate n atkToc) ⟨atkStream, p⟩ =
      some (List.replicate n atkParsedSection, ⟨atkStream, q⟩) :=
  readSections_replicate emptyR 2097152 atkToc atkParsedSection atkStream 2162658
    (by rw [show (2097152 : Nat) + atkToc.section_offset = 2097152 from rfl]
        exact Section_read_atk) n

theorem atkSection_length : atkSection.length = 65506 := by
  rw [atkSection_eq, secBytes_length emptyR atkParsedSection (by decide),
    atk_blockLen]

theorem atkStream_length : atkStream.length = 2162674 := by
  simp only [atkStream, List.length_append, flatten_replicate_length,
    atkEntry_length, atkSection_length,
    show atkHeader.length = 32 from by decide,
    show atkFooter.length = 16 from by decide]

theorem PriFile_read_eval (R : Registry) (d version : List Nat)
    (tfs toc sso ns q qf : Nat) (es : List TocEntry) (ss : List Section)
    (rend : ByteStream)
    (rA : readBytes 8 ⟨d, 0⟩ = some (version, ⟨d, 8⟩))
    (rMg : checkMagic version = some version)
    (rH8 : readU16 ⟨d, 8⟩ = some (0, ⟨d, 10⟩))
    (rH10 : readU16 ⟨d, 10⟩ = some (1, ⟨d, 12⟩))
    (rH12 : readU32 ⟨d, 12⟩ = some (tfs, ⟨d, 16⟩))
    (rH16 : readU32 ⟨d, 16⟩ = some (toc, ⟨d, 20⟩))
    (rH20 : readU32 ⟨d, 20⟩ = some (sso, ⟨d, 24⟩))
    (rH24 : readU16 ⟨d, 24⟩ = some (ns, ⟨d, 26⟩))
    (rH26 : readU16 ⟨d, 26⟩ = some (0xffff, ⟨d, 28⟩))
    (rH28 : readU32 ⟨d, 28⟩ = some (0, ⟨d, 32⟩))
    (rF0 : readU32 ⟨d, u64Sub tfs 16⟩ =
      some (0xdefffade, ⟨d, u64Sub tfs 16 + 4⟩))
    (rF4 : readU32 ⟨d, u64Sub tfs 16 + 4⟩ =
      some (tfs, ⟨d, u64Sub tfs 16 + 4 + 4⟩))
    (rF8 : readBytes 8 ⟨d, u64Sub tfs 16 + 4 + 4⟩ = some (version, ⟨d, qf⟩))
    (hread : readToc ns ⟨d, toc⟩ = some (es, ⟨d, q⟩))
    (hsecs : readSections R sso es ⟨d, q⟩ = some (ss, rend)) :
    PriFile.read R ⟨d, 0⟩ = some ⟨ss⟩ := by
  simp only [PriFile.read, rA, rMg, rH8, rH10, rH12, rH16, rH20, rH24, rH26, rH28,
    seekTo_eval, rF0, rF4, rF8, hread, hsecs]
  simp only [ne_eq, not_true_eq_false, if_false, if_neg]

set_option maxRecDepth 8000 in
theorem atk_parse : PriFile.read emptyR ⟨atkStream, 0⟩ = some atkPri := by
  have hsh : atkStream = MRM_PRI0 ++ (u16Bytes 0 ++ (u16Bytes 1 ++
      (u32Bytes 2162674 ++ (u32Bytes 32 ++ (u32Bytes 2097152 ++
      (u16Bytes 65535 ++ (u16Bytes 0xffff ++ (u32Bytes 0 ++
      ((List.replicate 65535 atkEntry).flatten ++ (atkSection ++ atkFooter)))))))))) := by
    simp only [atkStream, atkHeader, List.append_assoc]
  have hL : atkStream.length = 2162674 := atkStream_length
  have rA : readBytes 8 ⟨atkStream, 0⟩ = some (MRM_PRI0, ⟨atkStream, 8⟩) := by
    rw [readBytes_eq _ _ _ (by omega)]
    rw [show slice atkStream 0 8 = MRM_PRI0 from by
      rw [hsh, show (8 : Nat) = MRM_PRI0.length from rfl]
      exact slice_head MRM_PRI0 _]
  have rMg : checkMagic MRM_PRI0 = some MRM_PRI0 := by decide
  have rH8 : readU16 ⟨atkStream, 8⟩ = some (0, ⟨atkStream, 10⟩) := by
    rw [readU16_eq _ _ (by omega)]
    rw [show slice atkStream 8 2 = u16Bytes 0 from by
      rw [hsh]
      exact slice_field _ _ _ _ _ (by simp) rfl]
    simp
  have rH10 : readU16 ⟨atkStream, 10⟩ = some (1, ⟨atkStream, 12⟩) := by
    rw [readU16_eq _ _ (by omega)]
    rw [show slice atkStream 10 2 = u16Bytes 1 from by
      rw [hsh, show MRM_PRI0 ++ (u16Bytes 0 ++ (u16Bytes 1 ++
          (u32Bytes 2162674 ++ (u32Bytes 32 ++ (u32Bytes 2097152 ++
          (u16Bytes 65535 ++ (u16Bytes 0xffff ++ (u32Bytes 0 ++
          ((List.replicate 65535 atkEntry).flatten ++ (atkSection ++ atkFooter)))))))))) =
        (MRM_PRI0 ++ u16Bytes 0) ++ (u16Bytes 1 ++
          (u32Bytes 2162674 ++ (u32Bytes 32 ++ (u32Bytes 2097152 ++
          (u16Bytes 65535 ++ (u16Bytes 0xffff ++ (u32Bytes 0 ++
          ((List.replicate 65535 atkEntry).flatten ++
            (atkSection ++ atkFooter))))))))) from by
        simp only [List.append_assoc]]
      exact slice_field _ _ _ _ _ (by simp) rfl]
    simp
  have rH12 : readU32 ⟨atkStream, 12⟩ = some (2162674, ⟨atkStream, 16⟩) := by
    rw [readU32_eq _ _ (by omega)]
    rw [show slice atkStream 12 4 = u32Bytes 2162674 from by
      rw [hsh, show MRM_PRI0 ++ (u16Bytes 0 ++ (u16Bytes 1 ++
          (u32Bytes 2162674 ++ (u32Bytes 32 ++ (u32Bytes 2097152 ++
          (u16Bytes 65535 ++ (u16Bytes 0xffff ++ (u32Bytes 0 ++
          ((List.replicate 65535 atkEntry).flatten ++ (atkSection ++ atkFooter)))))))))) =
        (MRM_PRI0 ++ u16Bytes 0 ++ u16Bytes 1) ++ (u32Bytes 2162674 ++
          (u32Bytes 32 ++ (u32Bytes 2097152 ++
          (u16Bytes 65535 ++ (u16Bytes 0xffff ++ (u32Bytes 0 ++
          ((List.replicate 65535 atkEntry).flatten ++
            (atkSection ++ atkFooter)))))))) from by
        simp only [List.append_assoc]]
      exact slice_field _ _ _ _ _ (by simp) rfl]
    simp
  have rH16 : readU32 ⟨atkStream, 16⟩ = some (32, ⟨atkStream, 20⟩) := by
    rw [readU32_eq _ _ (by omega)]
    rw [show slice atkStream 16 4 = u32Bytes 32 from by
      rw [hsh, show MRM_PRI0 ++ (u16Bytes 0 ++ (u16Bytes 1 ++
          (u32Bytes 2162674 ++ (u32Bytes 32 ++ (u32Bytes 2097152 ++
          (u16Bytes 65535 ++ (u16Bytes 0xffff ++ (u32Bytes 0 ++
          ((List.replicate 65535 atkEntry).flatten ++ (atkSection ++ atkFooter)))))))))) =
        (MRM_PRI0 ++ u16Bytes 0 ++ u16Bytes 1 ++ u32Bytes 2162674) ++
          (u32Bytes 32 ++ (u32Bytes 2097152 ++
          (u16Bytes 65535 ++ (u16Bytes 0xffff ++ (u32Bytes 0 ++
          ((List.replicate 65535 atkEntry).flatten ++
            (atkSection ++ atkFooter))))))) from by
        simp only [List.append_assoc]]
      exact slice_field _ _ _ _ _ (by simp) rfl]
    simp
  have rH20 : readU32 ⟨atkStream, 20⟩ = some (2097152, ⟨atkStream, 24⟩) := by
    rw [readU32_eq _ _ (by omega)]
    rw [show slice atkStream 20 4 = u32Bytes 2097152 from by
      rw [hsh, show MRM_PRI0 ++ (u16Bytes 0 ++ (u16Bytes 1 ++
          (u32Bytes 2162674 ++ (u32Bytes 32 ++ (u32Bytes 2097152 ++
          (u16Bytes 65535 ++ (u16Bytes 0xffff ++ (u32Bytes 0 ++
          ((List.replicate 65535 atkEntry).flatten ++ (atkSection ++ atkFooter)))))))))) =
        (MRM_PRI0 ++ u16Bytes 0 ++ u16Bytes 1 ++ u32Bytes 2162674 ++ u32Bytes 32) ++
          (u32Bytes 2097152 ++
          (u16Bytes 65535 ++ (u16Bytes 0xffff ++ (u32Bytes 0 ++
          ((List.replicate 65535 atkEntry).flatten ++
            (atkSection ++ atkFooter)))))) from by
        simp only [List.append_assoc]]
      exact slice_field _ _ _ _ _ (by simp) rfl]
    simp
  have rH24 : readU16 ⟨atkStream, 24⟩ = some (65535, ⟨atkStream, 26⟩) := by
    rw [readU16_eq _ _ (by omega)]
    rw [show slice atkStream 24 2 = u16Bytes 65535 from by
      rw [hsh, show MRM_PRI0 ++ (u16Bytes 0 ++ (u16Bytes 1 ++
          (u32Bytes 2162674 ++ (u32Bytes 32 ++ (u32Bytes 2097152 ++
          (u16Bytes 65535 ++ (u16Bytes 0xffff ++ (u32Bytes 0 ++
          ((List.replicate 65535 atkEntry).flatten ++ (atkSection ++ atkFooter)))))))))) =
        (MRM_PRI0 ++ u16Bytes 0 ++ u16Bytes 1 ++ u32Bytes 2162674 ++ u32Bytes 32 ++
          u32Bytes 2097152) ++
          (u16Bytes 65535 ++ (u16Bytes 0xffff ++ (u32Bytes 0 ++
          ((List.replicate 65535 atkEntry).flatten ++
            (atkSection ++ atkFooter))))) from by
        simp only [List.append_assoc]]
      exact slice_field _ _ _ _ _ (by simp) rfl]
    simp
  have rH26 : readU16 ⟨atkStream, 26⟩ = some (0xffff, ⟨atkStream, 28⟩) := by
    rw [readU16_eq _ _ (by omega)]
    rw [show slice atkStream 26 2 = u16Bytes 0xffff from by
      rw [hsh, show MRM_PRI0 ++ (u16Bytes 0 ++ (u16Bytes 1 ++
          (u32Bytes 2162674 ++ (u32Bytes 32 ++ (u32Bytes 2097152 ++
          (u16Bytes 65535 ++ (u16Bytes 0xffff ++ (u32Bytes 0 ++
          ((List.replicate 65535 atkEntry).flatten ++ (atkSection ++ atkFooter)))))))))) =
        (MRM_PRI0 ++ u16Bytes 0 ++ u16Bytes 1 ++ u32Bytes 2162674 ++ u32Bytes 32 ++
          u32Bytes 2097152 ++ u16Bytes 65535) ++
          (u16Bytes 0xffff ++ (u32Bytes 0 ++
          ((List.replicate 65535 atkEntry).flatten ++
            (atkSection ++ atkFooter)))) from by
        simp only [List.append_assoc]]
      exact slice_field _ _ _ _ _ (by simp) rfl]
    simp
  have rH28 : readU32 ⟨atkStream, 28⟩ = some (0, ⟨atkStream, 32⟩) := by
    rw [readU32_eq _ _ (by omega)]
    rw [show slice atkStream 28 4 = u32Bytes 0 from by
      rw [hsh, show MRM_PRI0 ++ (u16Bytes 0 ++ (u16Bytes 1 ++
          (u32Bytes 2162674 ++ (u32Bytes 32 ++ (u32Bytes 2097152 ++
          (u16Bytes 65535 ++ (u16Bytes 0xffff ++ (u32Bytes 0 ++
          ((List.replicate 65535 atkEntry).flatten ++ (atkSection ++ atkFooter)))))))))) =
        (MRM_PRI0 ++ u16Bytes 0 ++ u16Bytes 1 ++ u32Bytes 2162674 ++ u32Bytes 32 ++
          u32Bytes 2097152 ++ u16Bytes 65535 ++ u16Bytes 0xffff) ++
          (u32Bytes 0 ++
          ((List.replicate 65535 atkEntry).flatten ++
            (atkSection ++ atkFooter))) from by
        simp only [List.append_assoc]]
      exact slice_field _ _ _ _ _ (by simp) rfl]
    simp
  have hseek : u64Sub 2162674 16 = 2162658 := by
    rw [u64Sub_of_le _ _ (by norm_num)]
  have hpre3 : (atkHeader ++ (List.replicate 65535 atkEntry).flatten ++
      atkSection).length = 2162658 := by
    simp only [List.length_append]
    rw [show atkHeader.length = 32 from by decide,
      flatten_replicate_length, atkEntry_length,
      atkSection_length]
  have hsh3 : atkStream = (atkHeader ++ (List.replicate 65535 atkEntry).flatten ++
      atkSection) ++ (u32Bytes 0xdefffade ++ (u32Bytes 2162674 ++
        (MRM_PRI0 ++ ([] : List Nat)))) := by
    simp only [atkStream, atkFooter, List.append_assoc, List.append_nil]
  have rF0 : readU32 ⟨atkStream, 2162658⟩ =
      some (0xdefffade, ⟨atkStream, 2162662⟩) := by
    rw [readU32_eq _ _ (by omega)]
    rw [show slice atkStream 2162658 4 = u32Bytes 0xdefffade from by
      rw [hsh3]
      exact slice_field _ _ _ _ _ (by rw [hpre3]) rfl]
    simp
  have rF4 : readU32 ⟨atkStream, 2162662⟩ =
      some (2162674, ⟨atkStream, 2162666⟩) := by
    rw [readU32_eq _ _ (by omega)]
    rw [show slice atkStream 2162662 4 = u32Bytes 2162674 from by
      rw [hsh3, show (atkHeader ++ (List.replicate 65535 atkEntry).flatten ++
          atkSection) ++ (u32Bytes 0xdefffade ++ (u32Bytes 2162674 ++
            (MRM_PRI0 ++ ([] : List Nat)))) =
        ((atkHeader ++ (List.replicate 65535 atkEntry).flatten ++ atkSection) ++
          u32Bytes 0xdefffade) ++ (u32Bytes 2162674 ++
            (MRM_PRI0 ++ ([] : List Nat))) from by
        simp only [List.append_assoc]]
      exact slice_field _ _ _ _ _
        (by simp only [List.length_append, hpre3, u32Bytes_length]) rfl]
    simp
  have rF8 : readBytes 8 ⟨atkStream, 2162666⟩ =
      some (MRM_PRI0, ⟨atkStream, 2162674⟩) := by
    rw [readBytes_eq _ _ _ (by omega)]
    rw [show slice atkStream 2162666 8 = MRM_PRI0 from by
      rw [hsh3, show (atkHeader ++ (List.replicate 65535 atkEntry).flatten ++
          atkSection) ++ (u32Bytes 0xdefffade ++ (u32Bytes 2162674 ++
            (MRM_PRI0 ++ ([] : List Nat)))) =
        ((atkHeader ++ (List.replicate 65535 atkEntry).flatten ++ atkSection) ++
          u32Bytes 0xdefffade ++ u32Bytes 2162674) ++
            (MRM_PRI0 ++ ([] : List Nat)) from by
        simp only [List.append_assoc]]
      exact slice_field _ _ _ _ _
        (by simp only [List.length_append, hpre3, u32Bytes_length]) rfl]
  have hread : readToc 65535 ⟨atkStream, 32⟩ =
      some (List.replicate 65535 atkToc, ⟨atkStream, 2097152⟩) := by
    have h := readToc_atk 65535 atkHeader (atkSection ++ atkFooter)
    rw [show atkHeader.length = 32 from by decide] at h
    rw [show atkHeader ++ (List.replicate 65535 atkEntry).flatten ++
        (atkSection ++ atkFooter) = atkStream from by
      simp only [atkStream, List.append_assoc]] at h
    rw [show (32 + 32 * 65535 : Nat) = 2097152 from by norm_num] at h
    exact h
  obtain ⟨q, hq⟩ := readSections_atk 65535 2097152
  have rF0' : readU32 ⟨atkStream, u64Sub 2162674 16⟩ =
      some (0xdefffade, ⟨atkStream, u64Sub 2162674 16 + 4⟩) := by
    rw [hseek, show (2162658 + 4 : Nat) = 2162662 from by norm_num]
    exact rF0
  have rF4' : readU32 ⟨atkStream, u64Sub 2162674 16 + 4⟩ =
      some (2162674, ⟨atkStream, u64Sub 2162674 16 + 4 + 4⟩) := by
    rw [hseek, show (2162658 + 4 : Nat) = 2162662 from by norm_num,
      show (2162662 + 4 : Nat) = 2162666 from by norm_num]
    exact rF4
  have rF8' : readBytes 8 ⟨atkStream, u64Sub 2162674 16 + 4 + 4⟩ =
      some (MRM_PRI0, ⟨atkStream, 2162674⟩) := by
    rw [hseek, show (2162658 + 4 + 4 : Nat) = 2162666 from by norm_num]
    exact rF8
  rw [show atkPri = (⟨List.replicate 65535 atkParsedSection⟩ : PriFile) from rfl]
  exact PriFile_read_eval emptyR atkStream MRM_PRI0 2162674 32 2097152 65535 2097152
    2162674 (List.replicate 65535 atkToc) (List.replicate 65535 atkParsedSection)
    ⟨atkStream, q⟩ rA rMg rH8 rH10 rH12 rH16 rH20 rH24 rH26 rH28 rF0' rF4' rF8'
    hread hq

/-! ## Re-serializing the oversized container wraps and breaks the file -/

theorem take4_eq (a b c e : Nat) (L : List Nat) :
    List.take 4 (a :: b :: c :: e :: L) = [a, b, c, e] := rfl

theorem totalLen_def (R : Registry) (f : PriFile) :
    totalLen R f = 48 + 32 * f.sections.length +
      (mkBlob R f.sections).length := rfl

theorem mkFile_def (R : Registry) (f : PriFile) :
    mkFile R f = header32 (totalLen R f)
      ((f.sections.length * 32 + 30) % 2 ^ 32) (f.sections.length % 2 ^ 16) ++
      mkToc R f.sections 2 ++ mkBlob R f.sections ++
      footer16 (totalLen R f) := rfl

theorem mkBlob_replicate_length (R : Registry) (s : Section)
    (h16 : s.data.section_identifier.length = 16) (n : Nat) :
    (mkBlob R (List.replicate n s)).length = n * blockLen R s := by
  induction n with
  | zero => simp [mkBlob]
  | succ n ih =>
    rw [List.replicate_succ, mkBlob_cons]
    simp only [List.length_append, secBytes_length R s h16, ih]
    ring

theorem mkToc_replicate_drop (R : Registry) (s : Section)
    (h16 : s.data.section_identifier.length = 16) :
    ∀ (k n off : Nat), k ≤ n →
      (mkToc R (List.replicate n s) off).drop (32 * k) =
        mkToc R (List.replicate (n - k) s) (off + k * blockLen R s) := by
  intro k
  induction k with
  | zero => intro n off h; simp
  | succ k ih =>
    intro n off h
    cases n with
    | zero => omega
    | succ n =>
      rw [List.replicate_succ]
      rw [show mkToc R (s :: List.replicate n s) off =
          tocEntryBytes s (off % 2 ^ 32) (blockLen R s % 2 ^ 32) ++
            mkToc R (List.replicate n s) (off + blockLen R s) from rfl]
      rw [show 32 * (k + 1) = 32 + 32 * k from by ring, ← List.drop_drop]
      rw [List.drop_left' (tocEntryBytes_length s _ _ h16)]
      rw [ih n (off + blockLen R s) (by omega)]
      rw [show n + 1 - (k + 1) = n - k from by omega,
        show off + blockLen R s + k * blockLen R s =
          off + (k + 1) * blockLen R s from by ring]

theorem atk_toc_slice :
    slice (mkToc emptyR (List.replicate 65535 atkParsedSection) 2) 65534 4 =
      [0, 0, 0x74, 0x65] := by
  have hdrop := mkToc_replicate_drop emptyR atkParsedSection (by decide)
    2047 65535 2 (by norm_num)
  rw [show (32 * 2047 : Nat) = 65504 from by norm_num] at hdrop
  simp only [slice]
  rw [show (65534 : Nat) = 65504 + 30 from by norm_num, ← List.drop_drop, hdrop]
  rw [atk_blockLen]
  rw [show (65535 - 2047 : Nat) = 63488 from by norm_num,
    show (2 + 2047 * 65506 : Nat) = 134090784 from by norm_num]
  rw [show (63488 : Nat) = 63487 + 1 from by norm_num, List.replicate_succ]
  rw [show (63487 : Nat) = 63486 + 1 from by norm_num, List.replicate_succ]
  rw [show mkToc emptyR (atkParsedSection :: atkParsedSection ::
      List.replicate 63486 atkParsedSection) 134090784 =
    tocEntryBytes atkParsedSection (134090784 % 2 ^ 32)
        (blockLen emptyR atkParsedSection % 2 ^ 32) ++
      mkToc emptyR (atkParsedSection :: List.replicate 63486 atkParsedSection)
        (134090784 + blockLen emptyR atkParsedSection) from rfl]
  rw [atk_blockLen]
  rw [show (134090784 : Nat) % 2 ^ 32 = 134090784 from by norm_num,
    show (65506 : Nat) % 2 ^ 32 = 65506 from by norm_num,
    show (134090784 + 65506 : Nat) = 134156290 from by norm_num]
  rw [show tocEntryBytes atkParsedSection 134090784 65506 =
    testid ++ u16Bytes 0 ++ u16Bytes 0 ++ (u32Bytes 0).take 2 ++
      u32Bytes 134090784 ++ u32Bytes 65506 ++ [0, 0] from rfl]
  rw [show testid ++ u16Bytes 0 ++ u16Bytes 0 ++ (u32Bytes 0).take 2 ++
      u32Bytes 134090784 ++ u32Bytes 65506 ++ [0, 0] ++
      mkToc emptyR (atkParsedSection :: List.replicate 63486 atkParsedSection)
        134156290 =
    (testid ++ u16Bytes 0 ++ u16Bytes 0 ++ (u32Bytes 0).take 2 ++
      u32Bytes 134090784 ++ u32Bytes 65506) ++ ([0, 0] ++
      mkToc emptyR (atkParsedSection :: List.replicate 63486 atkParsedSection)
        134156290) from by simp only [List.append_assoc]]
  rw [List.drop_left' (by simp [testid_length] : (testid ++ u16Bytes 0 ++
    u16Bytes 0 ++ (u32Bytes 0).take 2 ++ u32Bytes 134090784 ++
    u32Bytes 65506).length = 30)]
  rw [show mkToc emptyR (atkParsedSection :: List.replicate 63486 atkParsedSection)
      134156290 =
    tocEntryBytes atkParsedSection (134156290 % 2 ^ 32)
        (blockLen emptyR atkParsedSection % 2 ^ 32) ++
      mkToc emptyR (List.replicate 63486 atkParsedSection)
        (134156290 + blockLen emptyR atkParsedSection) from rfl]
  rw [show tocEntryBytes atkParsedSection (134156290 % 2 ^ 32)
      (blockLen emptyR atkParsedSection % 2 ^ 32) =
    testid ++ u16Bytes 0 ++ u16Bytes 0 ++ (u32Bytes 0).take 2 ++
      u32Bytes (134156290 % 2 ^ 32) ++
      u32Bytes (blockLen emptyR atkParsedSection % 2 ^ 32) ++ [0, 0] from rfl]
  rw [show testid = 0x74 :: 0x65 :: (([0x73, 0x74] ++ List.replicate 10 0x30) ++
    [0, 0]) from rfl]
  simp only [List.cons_append, List.nil_append]
  exact take4_eq 0 0 0x74 0x65 _

theorem PriFile_read_evalFail (R : Registry) (d version : List Nat)
    (tfs toc sso ns m : Nat)
    (rA : readBytes 8 ⟨d, 0⟩ = some (version, ⟨d, 8⟩))
    (rMg : checkMagic version = some version)
    (rH8 : readU16 ⟨d, 8⟩ = some (0, ⟨d, 10⟩))
    (rH10 : readU16 ⟨d, 10⟩ = some (1, ⟨d, 12⟩))
    (rH12 : readU32 ⟨d, 12⟩ = some (tfs, ⟨d, 16⟩))
    (rH16 : readU32 ⟨d, 16⟩ = some (toc, ⟨d, 20⟩))
    (rH20 : readU32 ⟨d, 20⟩ = some (sso, ⟨d, 24⟩))
    (rH24 : readU16 ⟨d, 24⟩ = some (ns, ⟨d, 26⟩))
    (rH26 : readU16 ⟨d, 26⟩ = some (0xffff, ⟨d, 28⟩))
    (rH28 : readU32 ⟨d, 28⟩ = some (0, ⟨d, 32⟩))
    (rF0 : readU32 ⟨d, u64Sub tfs 16⟩ =
      some (m, ⟨d, u64Sub tfs 16 + 4⟩))
    (hm : m ≠ 0xdefffade) :
    PriFile.read R ⟨d, 0⟩ = none := by
  simp only [PriFile.read, rA, rMg, rH8, rH10, rH12, rH16, rH20, rH24, rH26, rH28,
    seekTo_eval, rF0]
  simp only [ne_eq, not_true_eq_false, if_false, if_neg]
  rw [if_pos hm]

theorem atk_reread :
    PriFile.read emptyR ⟨PriFile.writeBytes emptyR atkPri, 0⟩ = none := by
  have hsecs_eq : atkPri.sections = List.replicate 65535 atkParsedSection := rfl
  have h16 : ∀ s ∈ atkPri.sections, s.data.section_identifier.length = 16 := by
    intro s hs
    rw [hsecs_eq] at hs
    rw [List.eq_of_mem_replicate hs]
    decide
  have h16r : ∀ s ∈ List.replicate 65535 atkParsedSection,
      s.data.section_identifier.length = 16 := by
    rw [← hsecs_eq]
    exact h16
  have hnum : atkPri.sections.length = 65535 := by
    rw [hsecs_eq, List.length_replicate]
  have htot : totalLen emptyR atkPri = 4295032878 := by
    rw [totalLen_def, hnum, hsecs_eq,
      mkBlob_replicate_length emptyR atkParsedSection (by decide) 65535,
      atk_blockLen]
  rw [PriFile.writeBytes, write_eq_mkFile emptyR atkPri h16]
  rw [show (⟨mkFile emptyR atkPri, 16⟩ : ByteSink).data =
    mkFile emptyR atkPri from rfl]
  have hM : mkFile emptyR atkPri = header32 4295032878 2097150 65535 ++
      (mkToc emptyR (List.replicate 65535 atkParsedSection) 2 ++
        (mkBlob emptyR (List.replicate 65535 atkParsedSection) ++
          footer16 4295032878)) := by
    rw [mkFile_def, htot, hnum, hsecs_eq]
    rw [show (65535 * 32 + 30 : Nat) % 2 ^ 32 = 2097150 from by norm_num,
      show (65535 : Nat) % 2 ^ 16 = 65535 from by norm_num]
    simp only [List.append_assoc]
  have hL : (mkFile emptyR atkPri).length = 4295032878 := by
    rw [hM]
    simp only [List.length_append, header32_length, footer16_length,
      mkToc_length emptyR (List.replicate 65535 atkParsedSection) 2 h16r,
      mkBlob_replicate_length emptyR atkParsedSection (by decide) 65535,
      List.length_replicate, atk_blockLen]
  have rA : readBytes 8 ⟨mkFile emptyR atkPri, 0⟩ =
      some (MRM_PRI2, ⟨mkFile emptyR atkPri, 8⟩) := by
    rw [readBytes_eq _ _ _ (by rw [hL]; norm_num)]
    rw [show slice (mkFile emptyR atkPri) 0 8 = MRM_PRI2 from by
      rw [hM]
      exact slice_h0 _ _ _ _]
  have rMg : checkMagic MRM_PRI2 = some MRM_PRI2 := by decide
  have rH8 : readU16 ⟨mkFile emptyR atkPri, 8⟩ =
      some (0, ⟨mkFile emptyR atkPri, 10⟩) := by
    rw [readU16_eq _ _ (by rw [hL]; norm_num)]
    rw [show slice (mkFile emptyR atkPri) 8 2 = u16Bytes 0 from by
      rw [hM]
      exact slice_h8 _ _ _ _]
    simp
  have rH10 : readU16 ⟨mkFile emptyR atkPri, 10⟩ =
      some (1, ⟨mkFile emptyR atkPri, 12⟩) := by
    rw [readU16_eq _ _ (by rw [hL]; norm_num)]
    rw [show slice (mkFile emptyR atkPri) 10 2 = u16Bytes 1 from by
      rw [hM]
      exact slice_h10 _ _ _ _]
    simp
  have rH12 : readU32 ⟨mkFile emptyR atkPri, 12⟩ =
      some (65582, ⟨mkFile emptyR atkPri, 16⟩) := by
    rw [readU32_eq _ _ (by rw [hL]; norm_num)]
    rw [show slice (mkFile emptyR atkPri) 12 4 = u32Bytes 4295032878 from by
      rw [hM]
      exact slice_h12 _ _ _ _]
    simp only [leVal_u32Bytes]
    norm_num
  have rH16 : readU32 ⟨mkFile emptyR atkPri, 16⟩ =
      some (30, ⟨mkFile emptyR atkPri, 20⟩) := by
    rw [readU32_eq _ _ (by rw [hL]; norm_num)]
    rw [show slice (mkFile emptyR atkPri) 16 4 = u32Bytes 30 from by
      rw [hM]
      exact slice_h16 _ _ _ _]
    simp
  have rH20 : readU32 ⟨mkFile emptyR atkPri, 20⟩ =
      some (2097150, ⟨mkFile emptyR atkPri, 24⟩) := by
    rw [readU32_eq _ _ (by rw [hL]; norm_num)]
    rw [show slice (mkFile emptyR atkPri) 20 4 = u32Bytes 2097150 from by
      rw [hM]
      exact slice_h20 _ _ _ _]
    simp
  have rH24 : readU16 ⟨mkFile emptyR atkPri, 24⟩ =
      some (65535, ⟨mkFile emptyR atkPri, 26⟩) := by
    rw [readU16_eq _ _ (by rw [hL]; norm_num)]
    rw [show slice (mkFile emptyR atkPri) 24 2 = u16Bytes 65535 from by
      rw [hM]
      exact slice_h24 _ _ _ _]
    simp
  have rH26 : readU16 ⟨mkFile emptyR atkPri, 26⟩ =
      some (0xffff, ⟨mkFile emptyR atkPri, 28⟩) := by
    rw [readU16_eq _ _ (by rw [hL]; norm_num)]
    rw [show slice (mkFile emptyR atkPri) 26 2 = u16Bytes 0xffff from by
      rw [hM]
      exact slice_h26 _ _ _ _]
    simp
  have rH28 : readU32 ⟨mkFile emptyR atkPri, 28⟩ =
      some (0, ⟨mkFile emptyR atkPri, 32⟩) := by
    rw [readU32_eq _ _ (by rw [hL]; norm_num)]
    rw [show slice (mkFile emptyR atkPri) 28 4 = u32Bytes 0 from by
      rw [hM]
      exact slice_h28 _ _ _ _]
    simp
  have hsl : slice (mkFile emptyR atkPri) 65566 4 = [0, 0, 0x74, 0x65] := by
    rw [hM]
    rw [slice_peel _ _ _ _ (by rw [header32_length]; norm_num)]
    rw [header32_length]
    rw [show (65566 - 32 : Nat) = 65534 from by norm_num]
    rw [slice_inner _ _ _ _ (by
      rw [mkToc_length emptyR (List.replicate 65535 atkParsedSection) 2 h16r,
        List.length_replicate]
      norm_num)]
    exact atk_toc_slice
  have rFm : readU32 ⟨mkFile emptyR atkPri, u64Sub 65582 16⟩ =
      some (1702100992, ⟨mkFile emptyR atkPri, u64Sub 65582 16 + 4⟩) := by
    rw [show u64Sub 65582 16 = 65566 from u64Sub_of_le _ _ (by norm_num)]
    rw [readU32_eq _ _ (by rw [hL]; norm_num)]
    rw [hsl]
    rw [show leVal [0, 0, 0x74, 0x65] = 1702100992 from by decide]
  exact PriFile_read_evalFail emptyR (mkFile emptyR atkPri) MRM_PRI2 65582 30
    2097150 65535 1702100992 rA rMg rH8 rH10 rH12 rH16 rH20 rH24 rH26 rH28 rFm
    (by norm_num)

/-! ## Corollaries used by the claim theorems -/

theorem encLen_def (R : Registry) (s : Section) :
    encLen R s = (s.data.writeBytes R).length := rfl

theorem Section_read_fields0 (R : Registry) (d : List Nat) (p : Nat)
    (s : Section) (r' : ByteStream) (h : Section.read R ⟨d, p⟩ = some (s, r')) :
    ∃ slen, getU32 d (p + 24) = some slen ∧ getU32 d (p + 28) = some 0 ∧
      getU32 d (u64Sub (p + slen) 8) = some 0xdef5fade ∧
      getU32 d (u64Sub (p + slen) 8 + 4) = some slen ∧
      r'.data = d ∧ r'.pos = u64Sub (p + slen) 8 + 8 := by
  simpa using Section_read_fields R ⟨d, p⟩ s r' h

theorem PriFile_read_fields0 (R : Registry) (d : List Nat) (f : PriFile)
    (h : PriFile.read R ⟨d, 0⟩ = some f) :
    ∃ tfs, getU16 d 8 = some 0 ∧ getU16 d 10 = some 1 ∧
      getU32 d 12 = some tfs ∧ getU16 d 26 = some 0xffff ∧
      getU32 d 28 = some 0 ∧ getU32 d (u64Sub tfs 16) = some 0xdefffade ∧
      getU32 d (u64Sub tfs 16 + 4) = some tfs := by
  simpa using PriFile_read_fields R ⟨d, 0⟩ f h

theorem getU32_bound (d : List Nat) (p v : Nat) (h : getU32 d p = some v) :
    p + 4 ≤ d.length := by
  simp only [getU32] at h
  split at h
  · rename_i hc
    exact hc
  · exact absurd h (by simp)

theorem writeBytes_eq_mkFile (R : Registry) (f : PriFile)
    (h16 : ∀ s ∈ f.sections, s.data.section_identifier.length = 16) :
    PriFile.writeBytes R f = mkFile R f := by
  rw [PriFile.writeBytes, write_eq_mkFile R f h16]

theorem mkFile_length (R : Registry) (f : PriFile)
    (h16 : ∀ s ∈ f.sections, s.data.section_identifier.length = 16) :
    (mkFile R f).length = totalLen R f := by
  simp only [mkFile, List.length_append, header32_length,
    mkToc_length R f.sections 2 h16, footer16_length, totalLen]
  ring

theorem totalLen_ge (R : Registry) (f : PriFile) : 48 ≤ totalLen R f := by
  rw [totalLen_def]
  omega

theorem mkFile_assoc (R : Registry) (f : PriFile) :
    mkFile R f = header32 (totalLen R f)
      ((f.sections.length * 32 + 30) % 2 ^ 32) (f.sections.length % 2 ^ 16) ++
      (mkToc R f.sections 2 ++ (mkBlob R f.sections ++
        footer16 (totalLen R f))) := by
  rw [mkFile_def]
  simp [List.append_assoc]

theorem mkFile_assoc2 (R : Registry) (f : PriFile) :
    mkFile R f = (header32 (totalLen R f)
      ((f.sections.length * 32 + 30) % 2 ^ 32) (f.sections.length % 2 ^ 16) ++
      (mkToc R f.sections 2 ++ mkBlob R f.sections)) ++
      footer16 (totalLen R f) := by
  rw [mkFile_def]
  simp [List.append_assoc]

theorem mkFile_pre_length (R : Registry) (f : PriFile)
    (h16 : ∀ s ∈ f.sections, s.data.section_identifier.length = 16) :
    (header32 (totalLen R f) ((f.sections.length * 32 + 30) % 2 ^ 32)
      (f.sections.length % 2 ^ 16) ++
      (mkToc R f.sections 2 ++ mkBlob R f.sections)).length =
      totalLen R f - 16 := by
  simp only [List.length_append, header32_length,
    mkToc_length R f.sections 2 h16, totalLen]
  omega

theorem mkFile_getU32_12 (R : Registry) (f : PriFile)
    (h16 : ∀ s ∈ f.sections, s.data.section_identifier.length = 16) :
    getU32 (mkFile R f) 12 = some (totalLen R f % 2 ^ 32) := by
  rw [getU32, if_pos (by rw [mkFile_length R f h16]; have := totalLen_ge R f; omega)]
  rw [show slice (mkFile R f) 12 4 = u32Bytes (totalLen R f) from by
    rw [mkFile_assoc]
    exact slice_h12 _ _ _ _]
  rw [leVal_u32Bytes]

theorem mkFile_getU16_24 (R : Registry) (f : PriFile)
    (h16 : ∀ s ∈ f.sections, s.data.section_identifier.length = 16) :
    getU16 (mkFile R f) 24 = some (f.sections.length % 2 ^ 16) := by
  rw [getU16, if_pos (by rw [mkFile_length R f h16]; have := totalLen_ge R f; omega)]
  rw [show slice (mkFile R f) 24 2 = u16Bytes (f.sections.length % 2 ^ 16) from by
    rw [mkFile_assoc]
    exact slice_h24 _ _ _ _]
  rw [leVal_u16Bytes]
  congr 1
  omega

theorem mkFile_footer_tfs (R : Registry) (f : PriFile)
    (h16 : ∀ s ∈ f.sections, s.data.section_identifier.length = 16) :
    getU32 (mkFile R f) (totalLen R f - 12) = some (totalLen R f % 2 ^ 32) := by
  have h48 := totalLen_ge R f
  rw [getU32, if_pos (by rw [mkFile_length R f h16]; omega)]
  rw [show slice (mkFile R f) (totalLen R f - 12) 4 =
      u32Bytes (totalLen R f) from by
    rw [mkFile_assoc2]
    exact slice_f4 _ _ _ (by rw [mkFile_pre_length R f h16]; omega)]
  rw [leVal_u32Bytes]

theorem mkFile_head_magic (R : Registry) (f : PriFile) :
    slice (mkFile R f) 0 8 = MRM_PRI2 := by
  rw [mkFile_assoc]
  exact slice_h0 _ _ _ _

theorem mkFile_tail_magic (R : Registry) (f : PriFile)
    (h16 : ∀ s ∈ f.sections, s.data.section_identifier.length = 16) :
    slice (mkFile R f) (totalLen R f - 8) 8 = MRM_PRI2 := by
  have h48 := totalLen_ge R f
  rw [mkFile_assoc2]
  exact slice_f8 _ _ _ (by rw [mkFile_pre_length R f h16]; omega)

theorem secBytes_getU32_24 (R : Registry) (s : Section)
    (h16 : s.data.section_identifier.length = 16) :
    getU32 (secBytes R s) 24 = some ((encLen R s + 40) % 2 ^ 32) := by
  have hsl : slice (secBytes R s) 24 4 = u32Bytes (secLenVal R s) := by
    rw [show secBytes R s = (s.data.section_identifier ++
        (u32Bytes s.section_qualifier ++ (u16Bytes s.flags ++
          u16Bytes s.section_flags))) ++ (u32Bytes (secLenVal R s) ++
        (u32Bytes 0 ++ (s.data.writeBytes R ++ (u32Bytes 0xdef5fade ++
          u32Bytes (secLenVal R s))))) from by
      simp [secBytes, List.append_assoc]]
    exact slice_field _ _ _ _ _ (by simp [h16]) rfl
  rw [getU32, if_pos (by rw [secBytes_length R s h16, blockLen_def]; omega)]
  rw [hsl, leVal_u32Bytes]
  congr 1
  rw [secLenVal_def]
  omega

theorem secBytes_getU32_footer (R : Registry) (s : Section)
    (h16 : s.data.section_identifier.length = 16) :
    getU32 (secBytes R s) (encLen R s + 36) =
      some ((encLen R s + 40) % 2 ^ 32) := by
  have hsl : slice (secBytes R s) (encLen R s + 36) 4 =
      u32Bytes (secLenVal R s) := by
    rw [show secBytes R s = (s.data.section_identifier ++
        (u32Bytes s.section_qualifier ++ (u16Bytes s.flags ++
          (u16Bytes s.section_flags ++ (u32Bytes (secLenVal R s) ++
          (u32Bytes 0 ++ (s.data.writeBytes R ++ u32Bytes 0xdef5fade))))))) ++
        (u32Bytes (secLenVal R s) ++ ([] : List Nat)) from by
      simp [secBytes, List.append_assoc]]
    exact slice_field _ _ _ _ _ (by
      simp only [List.length_append, h16, u16Bytes_length, u32Bytes_length,
        encLen_def]
      omega) rfl
  rw [getU32, if_pos (by rw [secBytes_length R s h16, blockLen_def])]
  rw [hsl, leVal_u32Bytes]
  congr 1
  rw [secLenVal_def]
  omega

theorem bigSec_encLen : encLen emptyR bigSec = 4294967257 := by
  show (SectionData.writeBytes emptyR bigSec.data).length = 4294967257
  rw [show bigSec.data =
    SectionData.unknown testid (List.replicate 4294967257 0) from rfl]
  rw [show SectionData.writeBytes emptyR
      (SectionData.unknown testid (List.replicate 4294967257 0)) =
    List.replicate 4294967257 0 from rfl]
  rw [List.length_replicate]

/-! ## The claims -/

/-- C1: as stated, the claim fails (see `C1_counterexample`): a container
parsed from a valid stream can re-serialize to `2 ^ 32` bytes or more, and the
wrapped `total_file_size` then makes the written stream unreadable.  The
amended claim: for every container obtained from a successful parse of a
genuine byte stream, under the payload-codec round-trip contract, and whose
re-serialized size fits in `u32`, writing succeeds (it is total) and reading
the produced stream back yields the same container, sections pairwise equal
and in order. -/
theorem C1_parsed_write_read_roundtrip (R : Registry) (d : List Nat)
    (f : PriFile) (hb : ∀ b ∈ d, b < 256)
    (hparse : PriFile.read R ⟨d, 0⟩ = some f) (hrt : CodecRT R)
    (hsize : totalLen R f < 2 ^ 32) :
    PriFile.read R ⟨PriFile.writeBytes R f, 0⟩ = some f := by
  obtain ⟨hwf, hn⟩ := PriFile_read_inv R ⟨d, 0⟩ f hparse hb
  exact write_read_roundtrip R f hwf hrt hn hsize

theorem C1_witness :
    (∀ b ∈ PriFile.writeBytes emptyR priA, b < 256) ∧
    PriFile.read emptyR ⟨PriFile.writeBytes emptyR priA, 0⟩ = some priA ∧
    CodecRT emptyR ∧ totalLen emptyR priA < 2 ^ 32 ∧
    PriFile.read emptyR ⟨PriFile.writeBytes emptyR priA, 0⟩ = some priA :=
  ⟨by decide, by decide, emptyR_rt, by decide,
    C1_parsed_write_read_roundtrip emptyR (PriFile.writeBytes emptyR priA) priA
      (by decide) (by decide) emptyR_rt (by decide)⟩

theorem C1_counterexample :
    PriFile.read emptyR ⟨atkStream, 0⟩ = some atkPri ∧
    PriFile.read emptyR ⟨PriFile.writeBytes emptyR atkPri, 0⟩ = none :=
  ⟨atk_parse, atk_reread⟩

/-- C2: decoding a section whose identifier matches no known tag yields an
Unknown value holding the identifier and exactly the declared payload bytes,
re-encoding emits those bytes unchanged, and the spec's Scenario A holds
concretely: the one-Unknown-section file round-trips with
`num_sections() == 1` and the expected section data. -/
theorem C2_unknown_payload_opaque_roundtrip (R : Registry) (id : List Nat)
    (len : Nat) (r : ByteStream) (hid : findCodec R id = none)
    (hlen : r.pos + len ≤ r.data.length) :
    SectionData.read R id len r =
      some (.unknown id (slice r.data r.pos len), ⟨r.data, r.pos + len⟩) ∧
    (slice r.data r.pos len).length = len ∧
    SectionData.writeBytes R (.unknown id (slice r.data r.pos len)) =
      slice r.data r.pos len ∧
    PriFile.read emptyR ⟨PriFile.writeBytes emptyR priA, 0⟩ = some priA ∧
    priA.num_sections = 1 ∧
    priA.sectionAt 0 = some ⟨0, 0, 0, .unknown testid hello⟩ := by
  refine ⟨?_, slice_length_eq _ _ _ hlen, rfl, by decide, rfl, rfl⟩
  simp only [SectionData.read, hid]
  rw [show min len (r.data.length - r.pos) = len from by omega]
  rfl

theorem C2_witness :
    findCodec emptyR testid = none ∧
    SectionData.read emptyR testid 5 ⟨hello, 0⟩ =
      some (.unknown testid (slice hello 0 5), ⟨hello, 5⟩) ∧
    SectionData.writeBytes emptyR (.unknown testid (slice hello 0 5)) =
      slice hello 0 5 ∧
    PriFile.read emptyR ⟨PriFile.writeBytes emptyR priA, 0⟩ = some priA ∧
    priA.num_sections = 1 ∧
    priA.sectionAt 0 = some ⟨0, 0, 0, .unknown testid hello⟩ := by
  have h := C2_unknown_payload_opaque_roundtrip emptyR testid 5 ⟨hello, 0⟩
    rfl (by decide)
  exact ⟨rfl, h.1, h.2.2.1, h.2.2.2.1, h.2.2.2.2.1, h.2.2.2.2.2⟩

/-- C3: as stated, the claim fails (see `C3_counterexample`): the length field
is the payload count plus 40 reduced modulo `2 ^ 32`, not the exact value.
The amended claim: `Section::write` appends exactly `secBytes`, whose size is
payload length plus 40, and whose header length field (offset 24) and footer
redundant length field both hold `(payload + 40) mod 2 ^ 32`; and on read, a
successful section parse forces the footer's repeated length to equal the
header length field (so a disagreement fails the parse). -/
theorem C3_section_length_framing (R : Registry) (s : Section)
    (d2 d : List Nat) (p : Nat) (sv : Section) (r' : ByteStream)
    (h16 : s.data.section_identifier.length = 16)
    (hread : Section.read R ⟨d, p⟩ = some (sv, r')) :
    (Section.write R s ⟨d2, d2.length⟩).data = d2 ++ secBytes R s ∧
    (secBytes R s).length = encLen R s + 40 ∧
    getU32 (secBytes R s) 24 = some ((encLen R s + 40) % 2 ^ 32) ∧
    getU32 (secBytes R s) (encLen R s + 36) =
      some ((encLen R s + 40) % 2 ^ 32) ∧
    ∃ slen, getU32 d (p + 24) = some slen ∧
      getU32 d (u64Sub (p + slen) 8 + 4) = some slen := by
  obtain ⟨slen, h24, _, _, hf4, _, _⟩ := Section_read_fields0 R d p sv r' hread
  refine ⟨?_, ?_, secBytes_getU32_24 R s h16, secBytes_getU32_footer R s h16,
    slen, h24, hf4⟩
  · rw [Section_write_at_end R s d2 h16]
  · rw [secBytes_length R s h16, blockLen_def]

theorem C3_witness :
    (⟨0, 0, 0, .unknown testid hello⟩ : Section).data.section_identifier.length
        = 16 ∧
    Section.read emptyR ⟨secBytes emptyR ⟨0, 0, 0, .unknown testid hello⟩, 0⟩ =
      some (⟨0, 0, 0, .unknown testid hello⟩,
        ⟨secBytes emptyR ⟨0, 0, 0, .unknown testid hello⟩, 45⟩) ∧
    getU32 (secBytes emptyR ⟨0, 0, 0, .unknown testid hello⟩) 24 =
      some ((encLen emptyR ⟨0, 0, 0, .unknown testid hello⟩ + 40) % 2 ^ 32) :=
  ⟨by decide, by decide,
    (C3_section_length_framing emptyR ⟨0, 0, 0, .unknown testid hello⟩ []
      (secBytes emptyR ⟨0, 0, 0, .unknown testid hello⟩) 0
      ⟨0, 0, 0, .unknown testid hello⟩
      ⟨secBytes emptyR ⟨0, 0, 0, .unknown testid hello⟩, 45⟩
      (by decide) (by decide)).2.2.1⟩

theorem C3_counterexample :
    getU32 (secBytes emptyR bigSec) 24 ≠ some (encLen emptyR bigSec + 40) ∧
    getU32 (secBytes emptyR bigSec) 24 = some 1 := by
  have h := secBytes_getU32_24 emptyR bigSec (by decide)
  rw [bigSec_encLen] at h
  rw [show (4294967257 + 40 : Nat) % 2 ^ 32 = 1 from by norm_num] at h
  refine ⟨?_, h⟩
  rw [h, bigSec_encLen]
  decide

/-- C4: as stated, the claim fails (see `C4_counterexample`): seeking to the
footer position makes the parse insensitive to the payload codec's cursor, so
a codec that consumes the wrong number of bytes is not detected.  The amended
claim: on any successful section parse, the stream is left at
`section_start + section_length` (computed from the declared header length
alone, via the footer seek), regardless of what the payload codec consumed. -/
theorem C4_footer_position_from_declared_length (R : Registry) (d : List Nat)
    (p : Nat) (s : Section) (r' : ByteStream)
    (h : Section.read R ⟨d, p⟩ = some (s, r')) :
    ∃ slen, getU32 d (p + 24) = some slen ∧ r'.data = d ∧
      r'.pos = u64Sub (p + slen) 8 + 8 := by
  obtain ⟨slen, h24, _, _, _, hd, hp⟩ := Section_read_fields0 R d p s r' h
  exact ⟨slen, h24, hd, hp⟩

theorem C4_witness :
    Section.read badR ⟨c4Stream, 0⟩ =
      some (⟨7, 3, 5, .known testid []⟩, ⟨c4Stream, 45⟩) ∧
    ∃ slen, getU32 c4Stream (0 + 24) = some slen ∧
      (⟨c4Stream, 45⟩ : ByteStream).data = c4Stream ∧
      (⟨c4Stream, 45⟩ : ByteStream).pos = u64Sub (0 + slen) 8 + 8 :=
  ⟨by decide,
    C4_footer_position_from_declared_length badR c4Stream 0
      ⟨7, 3, 5, .known testid []⟩ ⟨c4Stream, 45⟩ (by decide)⟩

theorem C4_counterexample :
    Section.read badR ⟨c4Stream, 0⟩ =
      some (⟨7, 3, 5, .known testid []⟩, ⟨c4Stream, 45⟩) ∧
    badCodec.decode 5 ⟨c4Stream, 32⟩ = some ([], 0) :=
  ⟨by decide, rfl⟩

/-- C5: as stated, the claim fails (see `C5_counterexample`): a stream whose
agreed header/footer size disagrees with the stream's actual byte length can
still parse (trailing junk is ignored).  The amended claim: a successful
parse forces the header's `total_file_size` (offset 12) to equal the footer's
repeated copy; and on write the same value, the output length reduced modulo
`2 ^ 32`, is emitted in both places, with the output exactly `totalLen` bytes
long. -/
theorem C5_total_size_consistency (R : Registry) (d : List Nat) (f : PriFile)
    (hparse : PriFile.read R ⟨d, 0⟩ = some f)
    (h16 : ∀ s ∈ f.sections, s.data.section_identifier.length = 16) :
    (∃ tfs, getU32 d 12 = some tfs ∧ getU32 d (u64Sub tfs 16 + 4) = some tfs) ∧
    (PriFile.writeBytes R f).length = totalLen R f ∧
    getU32 (PriFile.writeBytes R f) 12 = some (totalLen R f % 2 ^ 32) ∧
    getU32 (PriFile.writeBytes R f) (totalLen R f - 12) =
      some (totalLen R f % 2 ^ 32) := by
  obtain ⟨tfs, _, _, h12, _, _, _, ht2⟩ := PriFile_read_fields0 R d f hparse
  rw [writeBytes_eq_mkFile R f h16]
  exact ⟨⟨tfs, h12, ht2⟩, mkFile_length R f h16, mkFile_getU32_12 R f h16,
    mkFile_footer_tfs R f h16⟩

theorem C5_witness :
    PriFile.read emptyR ⟨PriFile.writeBytes emptyR priA, 0⟩ = some priA ∧
    (∀ s ∈ priA.sections, s.data.section_identifier.length = 16) ∧
    (PriFile.writeBytes emptyR priA).length = totalLen emptyR priA :=
  ⟨by decide, by decide,
    (C5_total_size_consistency emptyR (PriFile.writeBytes emptyR priA) priA
      (by decide) (by decide)).2.1⟩

theorem C5_counterexample :
    getU32 c5Stream 12 = some 125 ∧ c5Stream.length = 126 ∧
    PriFile.read emptyR ⟨c5Stream, 0⟩ = some priA :=
  ⟨by decide, by decide, by decide⟩

/-- C6: confirmed.  For every valid file — one that parses and whose declared
`total_file_size` matches its actual length — removing the final 16 bytes
makes `read` fail: it returns `none` (the model's only failure mode; the
parser is a total function, so it can neither panic nor return a partial
container). -/
theorem C6_stripped_footer_fails (R : Registry) (d : List Nat) (f : PriFile)
    (hparse : PriFile.read R ⟨d, 0⟩ = some f)
    (hself : getU32 d 12 = some d.length) :
    PriFile.read R ⟨d.take (d.length - 16), 0⟩ = none := by
  cases hr : PriFile.read R ⟨d.take (d.length - 16), 0⟩ with
  | none => rfl
  | some g =>
    exfalso
    obtain ⟨tfs, _, _, h12, _, _, hmk, _⟩ := PriFile_read_fields0 R _ g hr
    have hb12 := getU32_bound _ _ _ h12
    rw [List.length_take] at hb12
    rw [getU32_take d (d.length - 16) 12 (by omega)] at h12
    rw [hself, Option.some.injEq] at h12
    subst h12
    rw [u64Sub_of_le _ _ (by omega)] at hmk
    have hbm := getU32_bound _ _ _ hmk
    rw [List.length_take] at hbm
    omega

theorem C6_witness :
    PriFile.read emptyR ⟨PriFile.writeBytes emptyR priA, 0⟩ = some priA ∧
    getU32 (PriFile.writeBytes emptyR priA) 12 =
      some (PriFile.writeBytes emptyR priA).length ∧
    PriFile.read emptyR ⟨(PriFile.writeBytes emptyR priA).take
      ((PriFile.writeBytes emptyR priA).length - 16), 0⟩ = none :=
  ⟨by decide, by decide,
    C6_stripped_footer_fails emptyR (PriFile.writeBytes emptyR priA) priA
      (by decide) (by decide)⟩

/-- C7: confirmed.  If any reserved constant field is wrong — the 16-bit
field at offset 8 (must be 0), at offset 10 (must be 1), the sentinel at
offset 26 (must be 0xffff), the 32-bit field at offset 28 (must be 0), or a
section header's reserved 32-bit field at its offset 28 (must be 0) — the
parse returns `none`; it never silently succeeds. -/
theorem C7_reserved_field_strictness (R : Registry) (d : List Nat) (p : Nat) :
    ((getU16 d 8 ≠ some 0 ∨ getU16 d 10 ≠ some 1 ∨
      getU16 d 26 ≠ some 0xffff ∨ getU32 d 28 ≠ some 0) →
      PriFile.read R ⟨d, 0⟩ = none) ∧
    (getU32 d (p + 28) ≠ some 0 → Section.read R ⟨d, p⟩ = none) := by
  constructor
  · intro hbad
    cases hr : PriFile.read R ⟨d, 0⟩ with
    | none => rfl
    | some f =>
      exfalso
      obtain ⟨tfs, h8, h10, _, h26, h28, _, _⟩ := PriFile_read_fields0 R d f hr
      rcases hbad with hx | hx | hx | hx
      · exact hx h8
      · exact hx h10
      · exact hx h26
      · exact hx h28
  · intro hbad
    cases hr : Section.read R ⟨d, p⟩ with
    | none => rfl
    | some pr =>
      exfalso
      obtain ⟨s, r'⟩ := pr
      obtain ⟨slen, _, h28, _⟩ := Section_read_fields0 R d p s r' hr
      exact hbad h28

theorem C7_witness :
    getU16 c7bad 8 ≠ some 0 ∧ PriFile.read emptyR ⟨c7bad, 0⟩ = none ∧
    getU32 c7bad (4 + 28) ≠ some 0 ∧ Section.read emptyR ⟨c7bad, 4⟩ = none :=
  ⟨by decide, (C7_reserved_field_strictness emptyR c7bad 4).1 (Or.inl (by decide)),
    by decide, (C7_reserved_field_strictness emptyR c7bad 4).2 (by decide)⟩

/-- C8: confirmed.  `write` always emits the newest recognized magic,
`mrm_pri2`, both in the leading 8 bytes and in the trailing 8 bytes of its
output (the two are identical), while the reader accepts any of the four
recognized magics — so a container parsed from an older version is written
back with the newest one. -/
theorem C8_version_normalization (R : Registry) (f : PriFile)
    (h16 : ∀ s ∈ f.sections, s.data.section_identifier.length = 16) :
    slice (PriFile.writeBytes R f) 0 8 = MRM_PRI2 ∧
    slice (PriFile.writeBytes R f) ((PriFile.writeBytes R f).length - 8) 8 =
      MRM_PRI2 ∧
    (checkMagic MRM_PRI0).isSome = true ∧ (checkMagic MRM_PRI1).isSome = true ∧
    (checkMagic MRM_PRI2).isSome = true ∧
    (checkMagic MRM_PRIF).isSome = true := by
  rw [writeBytes_eq_mkFile R f h16, mkFile_length R f h16]
  exact ⟨mkFile_head_magic R f, mkFile_tail_magic R f h16, by decide, by decide,
    by decide, by decide⟩

theorem C8_witness :
    (∀ s ∈ priA.sections, s.data.section_identifier.length = 16) ∧
    slice (PriFile.writeBytes emptyR priA) 0 8 = MRM_PRI2 :=
  ⟨by decide, (C8_version_normalization emptyR priA (by decide)).1⟩

/-- C9: confirmed.  `section(i)` is `Vec::get`: it returns the `i`-th section
exactly when `i < num_sections()` and `none` otherwise, for every index; it
is a total function and never panics. -/
theorem C9_section_accessor_total (f : PriFile) (i : Nat) :
    f.sectionAt i = if h : i < f.num_sections then
      some (f.sections.get ⟨i, h⟩) else none := by
  by_cases h : i < f.sections.length
  · rw [dif_pos (show i < f.num_sections from h)]
    exact List.get?_eq_get h
  · rw [dif_neg (show ¬i < f.num_sections from h)]
    exact List.get?_eq_none.mpr (by omega)

/-- C10: confirmed.  `write` emits the `num_sections` header field (offset
24) as the section count reduced modulo `2 ^ 16` — the `as u16` cast — so the
header declares the true count exactly when the container holds fewer than
65536 sections, and silently truncates otherwise. -/
theorem C10_num_sections_truncated (R : Registry) (f : PriFile)
    (h16 : ∀ s ∈ f.sections, s.data.section_identifier.length = 16) :
    getU16 (PriFile.writeBytes R f) 24 = some (f.num_sections % 2 ^ 16) := by
  rw [writeBytes_eq_mkFile R f h16]
  exact mkFile_getU16_24 R f h16

theorem C10_witness :
    (∀ s ∈ priA.sections, s.data.section_identifier.length = 16) ∧
    getU16 (PriFile.writeBytes emptyR priA) 24 =
      some (priA.num_sections % 2 ^ 16) :=
  ⟨by decide, C10_num_sections_truncated emptyR priA (by decide)⟩

end Pri
